import Mathlib

/-!
# Event post-processing of the bridge synchronizer

A shallow embedding of `synchronizer/synchronizer_xlayer.go` and of
`messagepush/kafkaproducer.go`.

* Go pointers to records become record values that are passed in and handed back.
* A Go `error` is `Option GoError` (`none` is `nil`).
* Every call to a collaborator (primary store, side store, broker, enrichment,
  metrics) is recorded as an `Event`; a function returns the events in call order.
* A `go func() { ... }()` statement is modelled by the event list of the task body,
  kept apart from the events of the spawning function.
* Packages that the two files import but that are not part of the embedded sources
  (`utils`, `pb`, `tokenlogoinfo`, `estimatetime`, `pushtask`, `common`, `math`)
  are taken as parameters: `Utils` and `Externals`.
-/

namespace XagonBridge

/-! ## Data model -/

/-- Go `error` values that are not `nil`; `wrap` is `errors.Wrap` of `github.com/pkg/errors`. -/
inductive GoError where
  | mk (msg : String)
  | wrap (inner : GoError) (msg : String)
deriving DecidableEq, Repr

/-- A `common.Address`; the zero value `common.Address{}` is `⟨0⟩`. -/
structure Address where
  val : Nat
deriving DecidableEq, Repr

/-- The zero `common.Address{}`. -/
def emptyAddress : Address := ⟨0⟩

/-- A `common.Hash`. -/
structure Hash where
  val : Nat
deriving DecidableEq, Repr

/-- An IEEE-754 `float64`, given by its 64 bits. -/
structure Float64 where
  bits : Nat
deriving DecidableEq, Repr

/-- The function `math.Float64frombits`: the float whose bit pattern is the argument. -/
def Float64frombits (b : Nat) : Float64 := ⟨b⟩

/-- The fields of `etherman.Deposit` that the synchronizer reads or writes.
`Amount` is a `*big.Int` (`none` is the nil pointer), `Time` is `Time.UnixMilli()`. -/
structure Deposit where
  LeafType : Nat
  OriginalNetwork : Nat
  OriginalAddress : Address
  Amount : Option Int
  DestinationNetwork : Nat
  DestinationAddress : Address
  DestContractAddress : Address
  DepositCount : Nat
  BlockNumber : Nat
  NetworkID : Nat
  TxHash : Hash
  Metadata : List Nat
  Time : Int
deriving DecidableEq, Repr

/-- The fields of `etherman.Claim` that the synchronizer reads. -/
structure Claim where
  MainnetFlag : Bool
  RollupIndex : Nat
  Index : Nat
  TxHash : Hash
  Time : Int
deriving DecidableEq, Repr

/-- The fields of `pb.TokenLogoInfo` that the synchronizer reads. -/
structure LogoInfo where
  Symbol : String
  Decimal : Nat
deriving DecidableEq, Repr

/-- The message `pb.Transaction`, with the fields set by the synchronizer. -/
structure Transaction where
  FromChain : Nat := 0
  ToChain : Nat := 0
  BridgeToken : String := ""
  TokenAmount : String := ""
  EstimateTime : Nat := 0
  Time : Nat := 0
  TxHash : String := ""
  Id : Nat := 0
  Index : Nat := 0
  Status : Nat := 0
  BlockNumber : Nat := 0
  DestAddr : String := ""
  FromChainId : Nat := 0
  ToChainId : Nat := 0
  GlobalIndex : String := ""
  LeafType : Nat := 0
  OriginalNetwork : Nat := 0
  ClaimTxHash : String := ""
  ClaimTime : Nat := 0
  LogoInfo : Option LogoInfo := none
deriving DecidableEq, Repr

/-- The message `pb.SymbolInfo`. -/
structure SymbolInfo where
  ChainId : Nat
  Address : String
deriving DecidableEq, Repr

/-- The field of `pb.PriceInfo` that the synchronizer reads. -/
structure PriceInfo where
  Price : Float64
deriving DecidableEq, Repr

/-- The message `pb.LargeTxInfo`. -/
structure LargeTxInfo where
  ChainId : Nat
  Symbol : String
  Amount : Float64
  UsdAmount : Float64
  Hash : String
  Address : String
deriving DecidableEq, Repr

/-- The two operations `utils.OpWrite` and `utils.OpDel` of the large transaction cache keys. -/
inductive LargeTxOp where
  | OpWrite
  | OpDel
deriving DecidableEq, Repr

/-- A call to a collaborator, with its arguments. `FilterLargeTransaction` marks the
entry into `filterLargeTransaction`; `Errorf` and `Infof` are the calls to the logger,
recorded with their format string. -/
inductive Event where
  | AddBlockDeposit (deposit : Deposit)
  | Rollback (dbTx : Nat)
  | RecordOrder (networkID destNetwork leafType originalNetwork : Nat)
      (token : Address) (amount : Option Int)
  | FillLogoInfos (logoCacheKey : String) (tx : Transaction)
  | PushTransactionUpdate (tx : Transaction)
  | FilterLargeTransaction (tx : Transaction) (chainId : Nat)
  | GetCoinPrice (symbols : List SymbolInfo)
  | AddLargeTransaction (key : String) (info : LargeTxInfo)
  | DelLargeTransactions (key : String)
  | GetDeposit (index originNetwork : Nat)
  | Errorf (format : String)
  | Infof (format : String)
deriving DecidableEq, Repr

/-! ## Collaborators -/

/-- The primary store `s.storage`: what `Rollback` and `GetDeposit` answer. -/
structure Storage where
  Rollback : Nat → Option GoError
  GetDeposit : Nat → Nat → Except GoError Deposit

/-- The side store `s.redisStorage`: what each of its calls answers. -/
structure RedisStorage where
  AddBlockDeposit : Deposit → Option GoError
  GetCoinPrice : List SymbolInfo → List PriceInfo × Option GoError
  AddLargeTransaction : String → LargeTxInfo → Option GoError
  DelLargeTransactions : String → Option GoError

/-- The broker producer behind the `KafkaProducer` interface, as the synchronizer sees it. -/
structure KafkaProducer where
  PushTransactionUpdate : Transaction → Option GoError

/-- The fields of `ClientSynchronizer` used by the embedded functions;
`LargeTxUsdLimit` is `s.cfg.LargeTxUsdLimit`, `messagePushProducer = none` is the nil interface. -/
structure ClientSynchronizer where
  networkID : Nat
  rollupID : Nat
  LargeTxUsdLimit : Nat
  storage : Storage
  redisStorage : RedisStorage
  messagePushProducer : Option KafkaProducer

/-- Package `utils`, which is imported by the synchronizer and taken as a parameter.
`DecodeUSDCBridgeMetadata` returns two values; the caller keeps the first. -/
structure Utils where
  LeafTypeAsset : Nat
  LeafTypeMessage : Nat
  IsUSDCContractAddress : Address → Bool
  DecodeUSDCBridgeMetadata : List Nat → Address × Option GoError
  ReplaceUSDCDepositInfo : Deposit → Bool → Deposit
  GetRollupNetworkId : Nat
  GetChainIdByNetworkId : Nat → Nat
  GetLargeTxRedisKeySuffix : Nat → LargeTxOp → String

/-- The other imported packages, taken as parameters: the `pb` status constants,
the encoder `etherman.GenerateGlobalIndex`, the hex printers of `common`,
`tokenlogoinfo`, the estimate-time providers, and the `float64` arithmetic of the
Go runtime and of `math`. The enrichment `tokenlogoinfo.FillLogoInfos` is given by the
logo info it leaves in the transaction (`none`: it leaves the field nil). -/
structure Externals where
  TX_CREATED : Nat
  TX_CLAIMED : Nat
  GenerateGlobalIndex : Bool → Nat → Nat → Nat
  AddressHex : Address → String
  HashString : Hash → String
  HashHex : Hash → String
  GetTokenLogoMapKey : String → Nat → String
  FillLogoInfos : String → Transaction → Option LogoInfo
  DefaultCalculatorGet : Nat → Nat
  GetAvgCommitDuration : Nat
  float64OfUint64 : Nat → Float64
  Pow10 : Int → Float64
  fdiv : Float64 → Float64 → Float64
  fmul : Float64 → Float64 → Float64
  flt : Float64 → Float64 → Bool

/-! ## Machine integers and standard library -/

/-- Conversion to `uint32`. -/
def toUint32 (n : Nat) : Nat := n % 2 ^ 32

/-- Conversion to `uint64` (and to `uint`, which has 64 bits). -/
def toUint64 (n : Nat) : Nat := n % 2 ^ 64

/-- Conversion of a signed integer to `uint64`: two's complement. -/
def int64ToUint64 (i : Int) : Nat := (i % 2 ^ 64).toNat

/-- The method `(*big.Int).String`: decimal text, `<nil>` for the nil pointer. -/
def bigIntString : Option Int → String
  | none => "<nil>"
  | some (Int.ofNat n) => Nat.repr n
  | some (Int.negSucc n) => "-" ++ Nat.repr (n + 1)

/-- The value of a decimal digit, `none` for any other character. -/
def digitValue (c : Char) : Option Nat :=
  if 48 ≤ c.toNat ∧ c.toNat ≤ 57 then some (c.toNat - 48) else none

/-- The digit loop of `strconv.ParseUint` in base 10, without the range check. -/
def parseDigits : List Char → Nat → Option Nat
  | [], acc => some acc
  | c :: cs, acc =>
    match digitValue c with
    | none => none
    | some d => parseDigits cs (acc * 10 + d)

/-- The call `strconv.ParseUint(s, 10, 64)` before its range check: `none` is a syntax error. -/
def parseUintDigits (s : List Char) : Option Nat :=
  match s with
  | [] => none
  | _ => parseDigits s 0

/-- The call `strconv.ParseInt(s, 10, 64)`; `none` stands for a non-nil error
(syntax error or value out of the range of `int64`). -/
def ParseInt (s : String) : Option Int :=
  match s.data with
  | [] => none
  | c :: cs =>
    let neg : Bool := decide (c = '-')
    let rest := if c = '+' ∨ c = '-' then cs else c :: cs
    match parseUintDigits rest with
    | none => none
    | some un =>
      if neg = false ∧ un ≥ 2 ^ 63 then none
      else if neg = true ∧ un > 2 ^ 63 then none
      else some (if neg = true then -(un : Int) else (un : Int))

/-! ## The synchronizer (`synchronizer/synchronizer_xlayer.go`) -/

/-- The statement `if err != nil { log.Errorf(format, ...) }`. -/
def logIfError (err : Option GoError) (format : String) : List Event :=
  match err with
  | some _ => [Event.Errorf format]
  | none => []

/-- The function `beforeProcessDeposit`: the deposit behind the pointer afterwards. -/
def beforeProcessDeposit (u : Utils) (deposit : Deposit) : Deposit :=
  if deposit.LeafType = u.LeafTypeMessage ∧ u.IsUSDCContractAddress deposit.OriginalAddress then
    let deposit1 := { deposit with DestContractAddress := deposit.DestinationAddress }
    { deposit1 with DestinationAddress := (u.DecodeUSDCBridgeMetadata deposit1.Metadata).1 }
  else
    deposit

/-- The function `getGlobalIndex`; `s.rollupID - 1` is a subtraction of `uint`. -/
def getGlobalIndex (x : Externals) (s : ClientSynchronizer) (deposit : Deposit) : Nat :=
  let isMainnet := decide (deposit.NetworkID = 0)
  let rollupIndex := (s.rollupID + (2 ^ 64 - 1)) % 2 ^ 64
  x.GenerateGlobalIndex isMainnet rollupIndex deposit.DepositCount

/-- The function `getEstimateTimeForDepositCreated`. -/
def getEstimateTimeForDepositCreated (x : Externals) (networkId : Nat) : Nat :=
  if networkId = 0 then x.DefaultCalculatorGet networkId
  else toUint32 x.GetAvgCommitDuration

/-- The function `freshLargeTxCache`; `none` is the nil dereference of
`transaction.LogoInfo.Symbol`. -/
def freshLargeTxCache (u : Utils) (s : ClientSynchronizer) (transaction : Transaction)
    (chainId : Nat) (tokenAmount usdAmount : Float64) : Option (List Event) :=
  match transaction.LogoInfo with
  | none => none
  | some logoInfo =>
    let largeTxInfo : LargeTxInfo :=
      { ChainId := toUint64 chainId
        Symbol := logoInfo.Symbol
        Amount := tokenAmount
        UsdAmount := usdAmount
        Hash := transaction.TxHash
        Address := transaction.DestAddr }
    let writeKey := u.GetLargeTxRedisKeySuffix transaction.ToChain LargeTxOp.OpWrite
    let afterWrite := logIfError (s.redisStorage.AddLargeTransaction writeKey largeTxInfo)
      "failed set large tx cache for tx: %v, err: %v"
    let delKey := u.GetLargeTxRedisKeySuffix transaction.ToChain LargeTxOp.OpDel
    let afterDel := logIfError (s.redisStorage.DelLargeTransactions delKey)
      "failed del large tx cache for key: %v, err: %v"
    some (Event.AddLargeTransaction writeKey largeTxInfo :: afterWrite
      ++ Event.DelLargeTransactions delKey :: afterDel)

/-- The function `filterLargeTransaction`: its calls, in order. The side store answers
`GetCoinPrice` with the pair `(priceInfos, err)`; the first two branches are
`err != nil || len(priceInfos) == 0`. -/
def filterLargeTransaction (u : Utils) (x : Externals) (s : ClientSynchronizer)
    (transaction : Transaction) (chainId : Nat) : List Event :=
  Event.FilterLargeTransaction transaction chainId ::
  match transaction.LogoInfo with
  | none => [Event.Infof "failed to get logo info, so skip filter large transaction, tx: %v"]
  | some logoInfo =>
    let symbolInfo : SymbolInfo := { ChainId := toUint64 chainId, Address := transaction.BridgeToken }
    Event.GetCoinPrice [symbolInfo] ::
    match s.redisStorage.GetCoinPrice [symbolInfo] with
    | (_, some _) =>
      [Event.Errorf "not find coin price for coin: %v, chain: %v, so skip monitor large tx: %v"]
    | ([], none) =>
      [Event.Errorf "not find coin price for coin: %v, chain: %v, so skip monitor large tx: %v"]
    | (priceInfo :: _, none) =>
      match ParseInt transaction.TokenAmount with
      | none =>
        [Event.Errorf "failed convert coin amount to unit, err: %v, so skip monitor large tx: %v"]
      | some num =>
        let tokenAmount := x.fdiv (x.float64OfUint64 (int64ToUint64 num)) (x.Pow10 logoInfo.Decimal)
        let usdAmount := x.fmul priceInfo.Price tokenAmount
        if x.flt usdAmount (Float64frombits s.LargeTxUsdLimit) then
          [Event.Infof "tx usd amount less than limit, so skip, tx usd amount: %v, tx: %v"]
        else
          (freshLargeTxCache u s transaction chainId tokenAmount usdAmount).getD []

/-- The transaction built by the deposit-created task of `afterProcessDeposit`. -/
def depositCreatedTransaction (u : Utils) (x : Externals) (s : ClientSynchronizer)
    (deposit : Deposit) (depositID : Nat) : Transaction :=
  { FromChain := toUint32 deposit.NetworkID
    ToChain := toUint32 deposit.DestinationNetwork
    BridgeToken := x.AddressHex deposit.OriginalAddress
    TokenAmount := bigIntString deposit.Amount
    EstimateTime := getEstimateTimeForDepositCreated x deposit.NetworkID
    Time := int64ToUint64 deposit.Time
    TxHash := x.HashString deposit.TxHash
    Id := depositID
    Index := toUint64 deposit.DepositCount
    Status := x.TX_CREATED
    BlockNumber := deposit.BlockNumber
    DestAddr := x.AddressHex deposit.DestinationAddress
    FromChainId := u.GetChainIdByNetworkId deposit.NetworkID
    ToChainId := u.GetChainIdByNetworkId deposit.DestinationNetwork
    GlobalIndex := Nat.repr (getGlobalIndex x s deposit)
    LeafType := toUint32 deposit.LeafType
    OriginalNetwork := toUint32 deposit.OriginalNetwork }

/-- The body of the `go func()` of `afterProcessDeposit`: its calls, in order. It runs on
the deposit as `ReplaceUSDCDepositInfo` left it and on the captured `origAddress`. -/
def depositCreatedTask (u : Utils) (x : Externals) (s : ClientSynchronizer)
    (deposit : Deposit) (origAddress : Address) (depositID : Nat) : List Event :=
  match s.messagePushProducer with
  | none => [Event.Errorf "kafka push producer is nil, so can't push tx status change msg!"]
  | some messagePushProducer =>
    if deposit.LeafType ≠ u.LeafTypeAsset ∧ u.IsUSDCContractAddress origAddress = false then
      [Event.Infof "transaction is not asset, so skip push update change, hash: %v"]
    else
      let rollupWorkId := u.GetRollupNetworkId
      if deposit.NetworkID ≠ rollupWorkId ∧ deposit.DestinationNetwork ≠ rollupWorkId then
        [Event.Infof "transaction is not x layer, so skip push msg and filter large tx, hash: %v"]
      else
        let transaction := depositCreatedTransaction u x s deposit depositID
        let chainId := u.GetChainIdByNetworkId deposit.OriginalNetwork
        let logoCacheKey := x.GetTokenLogoMapKey transaction.BridgeToken chainId
        let enriched := { transaction with LogoInfo := x.FillLogoInfos logoCacheKey transaction }
        let afterPush := logIfError (messagePushProducer.PushTransactionUpdate enriched)
          "PushTransactionUpdate error: %v"
        Event.FillLogoInfos logoCacheKey transaction
          :: Event.PushTransactionUpdate enriched
          :: afterPush ++ filterLargeTransaction u x s enriched (toUint64 chainId)

/-- What `afterProcessDeposit` leaves behind: the returned error, the deposit behind the
pointer, the calls made before it returns, and the calls of the task it started
(`none` when no task was started). -/
structure DepositOutcome where
  err : Option GoError
  deposit : Deposit
  events : List Event
  task : Option (List Event)

/-- The tail of `afterProcessDeposit`, from the capture of `origAddress` on. -/
def afterCacheWrite (u : Utils) (x : Externals) (s : ClientSynchronizer)
    (deposit : Deposit) (depositID : Nat) (before : List Event) : DepositOutcome :=
  let origAddress := deposit.OriginalAddress
  let deposit1 := u.ReplaceUSDCDepositInfo deposit true
  { err := none
    deposit := deposit1
    events := before ++ [Event.RecordOrder (toUint32 deposit1.NetworkID)
      (toUint32 deposit1.DestinationNetwork) (toUint32 deposit1.LeafType)
      (toUint32 deposit1.OriginalNetwork) deposit1.OriginalAddress deposit1.Amount]
    task := some (depositCreatedTask u x s deposit1 origAddress depositID) }

/-- The function `afterProcessDeposit`. -/
def afterProcessDeposit (u : Utils) (x : Externals) (s : ClientSynchronizer)
    (deposit : Deposit) (depositID : Nat) (dbTx : Nat) : DepositOutcome :=
  if deposit.NetworkID = 0 then
    match s.redisStorage.AddBlockDeposit deposit with
    | some err =>
      match s.storage.Rollback dbTx with
      | some rollbackErr =>
        { err := some rollbackErr
          deposit := deposit
          events := [Event.AddBlockDeposit deposit,
            Event.Errorf "networkID: %d, failed to add block deposit to Redis, BlockNumber: %d, Deposit: %+v, err: %s",
            Event.Rollback dbTx,
            Event.Errorf "networkID: %d, error rolling back state to store block. BlockNumber: %v, rollbackErr: %v, err: %s"]
          task := none }
      | none =>
        { err := some err
          deposit := deposit
          events := [Event.AddBlockDeposit deposit,
            Event.Errorf "networkID: %d, failed to add block deposit to Redis, BlockNumber: %d, Deposit: %+v, err: %s",
            Event.Rollback dbTx]
          task := none }
    | none => afterCacheWrite u x s deposit depositID [Event.AddBlockDeposit deposit]
  else
    afterCacheWrite u x s deposit depositID []

/-- The origin network that the task of `afterProcessClaim` derives from the claim;
`claim.RollupIndex + 1` is an addition of `uint64`. -/
def claimOriginNetwork (claim : Claim) : Nat :=
  if claim.MainnetFlag = false then toUint64 (claim.RollupIndex + 1) else 0

/-- The transaction built by the task of `afterProcessClaim`. -/
def claimedTransaction (x : Externals) (s : ClientSynchronizer) (claim : Claim)
    (deposit : Deposit) : Transaction :=
  { FromChain := toUint32 deposit.NetworkID
    ToChain := toUint32 deposit.DestinationNetwork
    TxHash := x.HashString deposit.TxHash
    Index := toUint64 deposit.DepositCount
    Status := x.TX_CLAIMED
    ClaimTxHash := x.HashHex claim.TxHash
    ClaimTime := int64ToUint64 claim.Time
    DestAddr := x.AddressHex deposit.DestinationAddress
    GlobalIndex := Nat.repr (getGlobalIndex x s deposit) }

/-- The body of the `go func()` of `afterProcessClaim`: its calls, in order. -/
def claimTask (u : Utils) (x : Externals) (s : ClientSynchronizer) (claim : Claim) : List Event :=
  match s.messagePushProducer with
  | none => [Event.Errorf "kafka push producer is nil, so can't push tx status change msg!"]
  | some messagePushProducer =>
    let originNetwork := claimOriginNetwork claim
    Event.GetDeposit claim.Index originNetwork ::
    match s.storage.GetDeposit claim.Index originNetwork with
    | Except.error _ => [Event.Errorf "push message: GetDeposit error: %v"]
    | Except.ok deposit =>
      if deposit.LeafType ≠ u.LeafTypeAsset ∧ u.IsUSDCContractAddress deposit.OriginalAddress = false then
        [Event.Infof "transaction is not asset, so skip push update change, hash: %v"]
      else
        let transaction := claimedTransaction x s claim deposit
        let afterPush := logIfError (messagePushProducer.PushTransactionUpdate transaction)
          "PushTransactionUpdate error: %v"
        Event.PushTransactionUpdate transaction :: afterPush

/-- What `afterProcessClaim` leaves behind: the returned error and the calls of its task. -/
structure ClaimOutcome where
  err : Option GoError
  task : List Event

/-- The function `afterProcessClaim`. -/
def afterProcessClaim (u : Utils) (x : Externals) (s : ClientSynchronizer)
    (claim : Claim) : ClaimOutcome :=
  { err := none, task := claimTask u x s claim }

/-! ## The broker producer (`messagepush/kafkaproducer.go`) -/

/-- The record `produceOptions`. -/
structure produceOptions where
  topic : String
  pushKey : String
deriving DecidableEq, Repr

/-- The type `produceOptFunc`: an update of the options behind the pointer. -/
abbrev produceOptFunc := produceOptions → produceOptions

/-- The option `WithTopic`. -/
def WithTopic (topic : String) : produceOptFunc :=
  fun opts => { opts with topic := topic }

/-- The option `WithPushKey`. -/
def WithPushKey (key : String) : produceOptFunc :=
  fun opts => { opts with pushKey := key }

/-- The fields of `sarama.ProducerMessage` set by `Produce`; `Key = none` is the nil encoder. -/
structure ProducerMessage where
  Topic : String
  Value : String
  Key : Option String
deriving DecidableEq, Repr

/-- The broker client `sarama.SyncProducer`: what `SendMessage` answers
(partition and offset, or an error). -/
structure SyncProducer where
  SendMessage : ProducerMessage → Except GoError (Int × Int)

/-- The record `kafkaProducerImpl`; `producer = none` is the nil interface. -/
structure kafkaProducerImpl where
  producer : Option SyncProducer
  defaultTopic : String
  defaultPushKey : String

/-- The argument `msg interface{}` of `Produce`: a Go `string`, or any other value. -/
inductive Message (α : Type) where
  | str (v : String)
  | obj (o : α)

/-- A call made by `Produce`: to the broker client or to the logger. -/
inductive ProducerEvent where
  | SendMessage (m : ProducerMessage)
  | Debugf (format : String)
  | Errorf (format : String)
deriving DecidableEq, Repr

/-- What `Produce` leaves behind: the returned error and its calls, in order. -/
structure ProduceOutcome where
  err : Option GoError
  events : List ProducerEvent
deriving DecidableEq, Repr

/-- The loop `for _, f := range optFns { f(opts) }`. -/
def applyOptFns : List produceOptFunc → produceOptions → produceOptions
  | [], opts => opts
  | f :: fs, opts => applyOptFns fs (f opts)

/-- The method `Produce`; `p = none` is the nil receiver and `Marshal` is `json.Marshal`
on the values that are not strings. -/
def Produce {α : Type} (Marshal : α → Except GoError String) (p : Option kafkaProducerImpl)
    (msg : Message α) (optFns : List produceOptFunc) : ProduceOutcome :=
  match p with
  | none => { err := none, events := [ProducerEvent.Debugf "Kafka producer is nil"] }
  | some impl =>
    match impl.producer with
    | none => { err := none, events := [ProducerEvent.Debugf "Kafka producer is nil"] }
    | some producer =>
      let opts := applyOptFns optFns { topic := impl.defaultTopic, pushKey := impl.defaultPushKey }
      let encoded : Except GoError String :=
        match msg with
        | Message.str v => Except.ok v
        | Message.obj o =>
          match Marshal o with
          | Except.error err => Except.error err
          | Except.ok b => Except.ok b
      match encoded with
      | Except.error err =>
        { err := some (GoError.wrap err "kafka produce: JSON marshal error")
          events := [ProducerEvent.Errorf "msg cannot be encoded to json: msg[%v] err[%v]"] }
      | Except.ok msgString =>
        let produceMsg : ProducerMessage := { Topic := opts.topic, Value := msgString, Key := none }
        let produceMsg1 : ProducerMessage :=
          if opts.pushKey ≠ "" then { produceMsg with Key := some opts.pushKey } else produceMsg
        match producer.SendMessage produceMsg1 with
        | Except.error err =>
          { err := some (GoError.wrap err "kafka SendMessage error")
            events := [ProducerEvent.SendMessage produceMsg1] }
        | Except.ok _ =>
          { err := none
            events := [ProducerEvent.SendMessage produceMsg1,
              ProducerEvent.Debugf "Produced to Kafka: topic[%v] msg[%v] partition[%v] offset[%v]"] }

/-! ## The metadata decoder -/

/-- Modelled from the spec: the decoder `utils.DecodeUSDCBridgeMetadata`, which is not part
of the embedded sources. It decodes the true recipient from the metadata payload; a
failed decode is reported by a non-nil second result and gives the empty address, so that
it "leaves `destinationAddress` empty". The spec does not give the format of the payload:
the reading of the payload is the parameter `recipientOf`. -/
def DecodeUSDCBridgeMetadata (recipientOf : List Nat → Except GoError Address)
    (metadata : List Nat) : Address × Option GoError :=
  match recipientOf metadata with
  | Except.ok recipient => (recipient, none)
  | Except.error err => (emptyAddress, some err)

/-! ## The global index codec -/

/-- Modelled from the spec: the encoder `etherman.GenerateGlobalIndex`, which is not part
of the embedded sources. The mainnet flag takes the partition above the rollup index,
the rollup index and the deposit count take fixed-width partitions below it, of
`rollupBits` and `depositBits` bits. -/
def GenerateGlobalIndex (rollupBits depositBits : Nat) (isMainnet : Bool)
    (rollupIndex depositCount : Nat) : Nat :=
  (if isMainnet then 1 else 0) * 2 ^ (rollupBits + depositBits)
    + rollupIndex * 2 ^ depositBits + depositCount

/-- Modelled from the spec: the decoder of the global index, which is not part of the
embedded sources. It reads the three partitions back. -/
def decodeGlobalIndex (rollupBits depositBits : Nat) (globalIndex : Nat) : Bool × Nat × Nat :=
  (decide (globalIndex / 2 ^ (rollupBits + depositBits) % 2 = 1),
    globalIndex / 2 ^ depositBits % 2 ^ rollupBits,
    globalIndex % 2 ^ depositBits)

/-- An encoder that is injective on its three arguments. -/
def InjectiveEncoder (enc : Bool → Nat → Nat → Nat) : Prop :=
  ∀ m r c m1 r1 c1, enc m r c = enc m1 r1 c1 → m = m1 ∧ r = r1 ∧ c = c1

/-! ## Counting calls -/

/-- Whether an event is a call to `Rollback`. -/
def Event.isRollback : Event → Bool
  | Event.Rollback _ => true
  | _ => false

/-- Whether an event is a call to `PushTransactionUpdate`. -/
def Event.isPush : Event → Bool
  | Event.PushTransactionUpdate _ => true
  | _ => false

/-- Whether an event is a call to the token enrichment `FillLogoInfos`. -/
def Event.isFillLogoInfos : Event → Bool
  | Event.FillLogoInfos _ _ => true
  | _ => false

/-- Whether an event is an entry into `filterLargeTransaction`. -/
def Event.isFilterLargeTransaction : Event → Bool
  | Event.FilterLargeTransaction _ _ => true
  | _ => false

/-- Whether an event is a call to `metrics.RecordOrder`. -/
def Event.isRecordOrder : Event → Bool
  | Event.RecordOrder _ _ _ _ _ _ => true
  | _ => false

/-- Whether an event is a call to `GetDeposit`. -/
def Event.isGetDeposit : Event → Bool
  | Event.GetDeposit _ _ => true
  | _ => false

/-- Whether an event is a write `AddLargeTransaction` to the side store. -/
def Event.isAddLargeTransaction : Event → Bool
  | Event.AddLargeTransaction _ _ => true
  | _ => false

/-- Whether an event is a delete `DelLargeTransactions` on the side store. -/
def Event.isDelLargeTransactions : Event → Bool
  | Event.DelLargeTransactions _ => true
  | _ => false

/-! ## Predicates and expected values used in the statements -/

/-- The events of the large-transfer monitor: its entry, its side-store calls and logs. -/
def Event.isMonitorEvent : Event → Bool
  | Event.FilterLargeTransaction _ _ => true
  | Event.GetCoinPrice _ => true
  | Event.AddLargeTransaction _ _ => true
  | Event.DelLargeTransactions _ => true
  | Event.Errorf _ => true
  | Event.Infof _ => true
  | _ => false

/-- The skip conditions of the deposit-created task: the producer is absent; the leaf is
not an Asset and the origin address is not an allow-listed USDC contract; neither network
is the home rollup network. -/
def depositNotificationSkipped (u : Utils) (s : ClientSynchronizer) (deposit : Deposit)
    (origAddress : Address) : Prop :=
  s.messagePushProducer.isNone = true ∨
  (deposit.LeafType ≠ u.LeafTypeAsset ∧ u.IsUSDCContractAddress origAddress = false) ∨
  (deposit.NetworkID ≠ u.GetRollupNetworkId ∧ deposit.DestinationNetwork ≠ u.GetRollupNetworkId)

/-- The skip conditions can be decided. -/
instance instDecidableDepositNotificationSkipped (u : Utils) (s : ClientSynchronizer)
    (deposit : Deposit) (origAddress : Address) :
    Decidable (depositNotificationSkipped u s deposit origAddress) := by
  unfold depositNotificationSkipped
  infer_instance

/-- The transaction that the deposit-created task hands to the producer: the built
transaction with the logo info left by the enrichment. -/
def enrichedDepositTransaction (u : Utils) (x : Externals) (s : ClientSynchronizer)
    (deposit : Deposit) (depositID : Nat) : Transaction :=
  { depositCreatedTransaction u x s deposit depositID with
    LogoInfo := x.FillLogoInfos
      (x.GetTokenLogoMapKey (depositCreatedTransaction u x s deposit depositID).BridgeToken
        (u.GetChainIdByNetworkId deposit.OriginalNetwork))
      (depositCreatedTransaction u x s deposit depositID) }

/-- Whether an event is a call to the logger. -/
def Event.isLog : Event → Bool
  | Event.Errorf _ => true
  | Event.Infof _ => true
  | _ => false

/-- The record that `freshLargeTxCache` writes for a transaction: the chain id handed in,
the symbol of the logo info, the token amount, the USD amount, the hash and the
destination address of the transaction. -/
def expectedLargeTxInfo (transaction : Transaction) (logoInfo : LogoInfo) (chainId : Nat)
    (tokenAmount usdAmount : Float64) : LargeTxInfo :=
  { ChainId := toUint64 chainId
    Symbol := logoInfo.Symbol
    Amount := tokenAmount
    UsdAmount := usdAmount
    Hash := transaction.TxHash
    Address := transaction.DestAddr }

/-- Whether a call of `Produce` is a send to the broker. -/
def ProducerEvent.isSendMessage : ProducerEvent → Bool
  | ProducerEvent.SendMessage _ => true
  | _ => false

/-- The options in force: the options applied in order, from left to right, to the
defaults of the producer. -/
def resolvedOptions (impl : kafkaProducerImpl) (optFns : List produceOptFunc) : produceOptions :=
  optFns.foldl (fun (opts : produceOptions) (f : produceOptFunc) => f opts)
    { topic := impl.defaultTopic, pushKey := impl.defaultPushKey }

/-- The broker message that `Produce` builds for a value: the topic and the push key come
from the options in force, and the key is set only when the push key is not empty. -/
def expectedProducerMessage (impl : kafkaProducerImpl) (optFns : List produceOptFunc)
    (value : String) : ProducerMessage :=
  { Topic := (resolvedOptions impl optFns).topic
    Value := value
    Key :=
      if (resolvedOptions impl optFns).pushKey = "" then none
      else some (resolvedOptions impl optFns).pushKey }

/-! ## Sample collaborators -/

/-- A payload format for the metadata: one number, the recipient. -/
def sampleRecipientOf (metadata : List Nat) : Except GoError Address :=
  match metadata with
  | [b] => Except.ok ⟨b⟩
  | _ => Except.error (GoError.mk "invalid metadata")

/-- A package `utils` with leaf types 0 and 1, one allow-listed USDC contract, the
decoder on the sample payload format and home rollup network 1. -/
def sampleUtils : Utils :=
  { LeafTypeAsset := 0
    LeafTypeMessage := 1
    IsUSDCContractAddress := fun a => decide (a = ⟨7⟩)
    DecodeUSDCBridgeMetadata := DecodeUSDCBridgeMetadata sampleRecipientOf
    ReplaceUSDCDepositInfo := fun d _ => d
    GetRollupNetworkId := 1
    GetChainIdByNetworkId := fun n => n + 100
    GetLargeTxRedisKeySuffix := fun chain op =>
      match op with
      | LargeTxOp.OpWrite => "w" ++ Nat.repr chain
      | LargeTxOp.OpDel => "d" ++ Nat.repr chain }

/-- An injective encoder, by Cantor pairing. -/
def pairEncoder (m : Bool) (r c : Nat) : Nat :=
  Nat.pair (if m then 1 else 0) (Nat.pair r c)

/-- Sample externals; the float operations are placeholders on bit patterns. -/
def sampleExternals : Externals :=
  { TX_CREATED := 0
    TX_CLAIMED := 2
    GenerateGlobalIndex := pairEncoder
    AddressHex := fun a => Nat.repr a.val
    HashString := fun h => Nat.repr h.val
    HashHex := fun h => Nat.repr h.val
    GetTokenLogoMapKey := fun token chain => token ++ "_" ++ Nat.repr chain
    FillLogoInfos := fun _ _ => some { Symbol := "ETH", Decimal := 18 }
    DefaultCalculatorGet := fun _ => 15
    GetAvgCommitDuration := 10
    float64OfUint64 := fun n => ⟨n⟩
    Pow10 := fun e => ⟨e.toNat⟩
    fdiv := fun a _ => a
    fmul := fun a b => ⟨a.bits * b.bits⟩
    flt := fun a b => decide (a.bits < b.bits) }

/-- A side store on which every call succeeds and one price is known. -/
def okRedis : RedisStorage :=
  { AddBlockDeposit := fun _ => none
    GetCoinPrice := fun _ => ([{ Price := ⟨2⟩ }], none)
    AddLargeTransaction := fun _ _ => none
    DelLargeTransactions := fun _ => none }

/-- A side store on which every write fails. -/
def failingRedis : RedisStorage :=
  { AddBlockDeposit := fun _ => some (GoError.mk "redis down")
    GetCoinPrice := fun _ => ([], some (GoError.mk "redis down"))
    AddLargeTransaction := fun _ _ => some (GoError.mk "redis down")
    DelLargeTransactions := fun _ => some (GoError.mk "redis down") }

/-- A sample deposit: an asset leaf from mainnet to network 1. -/
def sampleDeposit : Deposit :=
  { LeafType := 0
    OriginalNetwork := 0
    OriginalAddress := ⟨3⟩
    Amount := some 5
    DestinationNetwork := 1
    DestinationAddress := ⟨9⟩
    DestContractAddress := emptyAddress
    DepositCount := 4
    BlockNumber := 12
    NetworkID := 0
    TxHash := ⟨77⟩
    Metadata := []
    Time := 1000 }

/-- A primary store whose rollback succeeds and which finds an asset deposit for every
deposit count and origin network. -/
def okStorage : Storage :=
  { Rollback := fun _ => none
    GetDeposit := fun index originNetwork =>
      Except.ok { sampleDeposit with DepositCount := index, NetworkID := originNetwork } }

/-- A producer whose push succeeds. -/
def okProducer : KafkaProducer :=
  { PushTransactionUpdate := fun _ => none }

/-- A synchronizer with a producer and working stores. -/
def sampleSynchronizer : ClientSynchronizer :=
  { networkID := 0
    rollupID := 1
    LargeTxUsdLimit := 1
    storage := okStorage
    redisStorage := okRedis
    messagePushProducer := some okProducer }

/-- A synchronizer without a producer. -/
def noProducerSynchronizer : ClientSynchronizer :=
  { sampleSynchronizer with messagePushProducer := none }

/-- A synchronizer whose side store fails every write and whose rollback succeeds. -/
def failingCacheSynchronizer : ClientSynchronizer :=
  { sampleSynchronizer with redisStorage := failingRedis }

/-- A Message deposit of the allow-listed USDC contract, with the user address 42 in its
metadata and the relay contract 9 as destination. -/
def usdcMessageDeposit : Deposit :=
  { sampleDeposit with LeafType := 1, OriginalAddress := ⟨7⟩, Metadata := [42] }

/-- The deposit `usdcMessageDeposit` with metadata that the sample decoder rejects. -/
def brokenMetadataDeposit : Deposit :=
  { usdcMessageDeposit with Metadata := [] }

/-- A broker client that accepts every message. -/
def okSyncProducer : SyncProducer :=
  { SendMessage := fun _ => Except.ok (0, 0) }

/-- A producer with default topic `orders` and no default push key. -/
def sampleProducerImpl : kafkaProducerImpl :=
  { producer := some okSyncProducer, defaultTopic := "orders", defaultPushKey := "" }

/-- A JSON encoder for natural numbers. -/
def natMarshal (n : Nat) : Except GoError String := Except.ok (Nat.repr n)

/-- A deposit from rollup network 1 and one from rollup network 2 with the same deposit count. -/
def rollupDepositA : Deposit := { sampleDeposit with NetworkID := 1 }

/-- The deposit `rollupDepositA` as network 2 made it. -/
def rollupDepositB : Deposit := { sampleDeposit with NetworkID := 2 }

/-- A side store whose cache write works and on which every call of the monitor fails. -/
def monitorFailingRedis : RedisStorage :=
  { okRedis with
    GetCoinPrice := fun _ => ([], some (GoError.mk "redis down"))
    AddLargeTransaction := fun _ _ => some (GoError.mk "redis down")
    DelLargeTransactions := fun _ => some (GoError.mk "redis down") }

/-- A synchronizer whose side store fails every call of the monitor. -/
def monitorFailingSynchronizer : ClientSynchronizer :=
  { sampleSynchronizer with redisStorage := monitorFailingRedis }

/-- An enriched transaction towards chain 1. -/
def sampleLargeTransaction : Transaction :=
  { ToChain := 1
    BridgeToken := "3"
    TokenAmount := "5"
    TxHash := "77"
    DestAddr := "9"
    LogoInfo := some { Symbol := "ETH", Decimal := 18 } }

/-- A claim of the sample deposit, made on a rollup. -/
def sampleClaim : Claim :=
  { MainnetFlag := false, RollupIndex := 2, Index := 4, TxHash := ⟨5⟩, Time := 99 }

/-! ## Lemmas on traces -/

/-- Logging an error adds no call that a predicate vanishing on `Errorf` counts. -/
theorem countP_logIfError (p : Event → Bool) (hp : ∀ f, p (Event.Errorf f) = false)
    (err : Option GoError) (format : String) :
    (logIfError err format).countP p = 0 := by
  cases err <;> simp [logIfError, hp]

/-- Logging yields monitor events only. -/
theorem logIfError_all_isMonitorEvent (err : Option GoError) (format : String) :
    ∀ e ∈ logIfError err format, e.isMonitorEvent = true := by
  cases err <;> simp [logIfError, Event.isMonitorEvent]

/-- The monitor makes no call other than its own. -/
theorem filterLargeTransaction_all_isMonitorEvent (u : Utils) (x : Externals)
    (s : ClientSynchronizer) (tx : Transaction) (chainId : Nat) :
    ∀ e ∈ filterLargeTransaction u x s tx chainId, e.isMonitorEvent = true := by
  unfold filterLargeTransaction freshLargeTxCache
  cases tx.LogoInfo with
  | none => simp [Event.isMonitorEvent]
  | some logoInfo =>
    simp only []
    generalize s.redisStorage.GetCoinPrice _ = r
    obtain ⟨infos, err⟩ := r
    cases err with
    | some e0 => simp [Event.isMonitorEvent]
    | none =>
      cases infos with
      | nil => simp [Event.isMonitorEvent]
      | cons priceInfo rest =>
        cases ParseInt tx.TokenAmount with
        | none => simp [Event.isMonitorEvent]
        | some num =>
          simp only [Option.getD_some]
          split
          · simp [Event.isMonitorEvent]
          · intro e he
            simp only [List.mem_cons, List.mem_append] at he
            rcases he with rfl | rfl | (rfl | he) | rfl | he
            · rfl
            · rfl
            · rfl
            · exact logIfError_all_isMonitorEvent _ _ e he
            · rfl
            · exact logIfError_all_isMonitorEvent _ _ e he

/-- A predicate that is false on every monitor event counts nothing in a monitor run. -/
theorem filterLargeTransaction_countP_eq_zero (p : Event → Bool)
    (hp : ∀ e, e.isMonitorEvent = true → p e = false) (u : Utils) (x : Externals)
    (s : ClientSynchronizer) (tx : Transaction) (chainId : Nat) :
    (filterLargeTransaction u x s tx chainId).countP p = 0 := by
  rw [List.countP_eq_zero]
  intro e he
  rw [hp e (filterLargeTransaction_all_isMonitorEvent u x s tx chainId e he)]
  simp

/-- The deposit-created task never calls `Rollback`. -/
theorem depositCreatedTask_countP_isRollback (u : Utils) (x : Externals)
    (s : ClientSynchronizer) (deposit : Deposit) (origAddress : Address) (depositID : Nat) :
    (depositCreatedTask u x s deposit origAddress depositID).countP Event.isRollback = 0 := by
  have hmon : ∀ e : Event, e.isMonitorEvent = true → e.isRollback = false := by
    intro e; cases e <;> simp [Event.isMonitorEvent, Event.isRollback]
  unfold depositCreatedTask
  cases s.messagePushProducer with
  | none => simp [Event.isRollback]
  | some producer =>
    simp only []
    split
    · simp [Event.isRollback]
    · split
      · simp [Event.isRollback]
      · simp only [List.countP_cons, List.countP_append]
        rw [filterLargeTransaction_countP_eq_zero _ hmon,
          countP_logIfError _ (fun _ => rfl)]
        simp [Event.isRollback]

/-! ## Deposit post-processing: the returned error and the rollback -/

/-- C1: `afterProcessDeposit` returns a non-nil error if and only if the deposit has
`NetworkID == 0` and the side-store write `AddBlockDeposit` fails; the error is then the
rollback error when `Rollback` fails and the error of `AddBlockDeposit` otherwise. In every
other case it returns nil, for every producer, enrichment, side store and metrics
behaviour. -/
theorem afterProcessDeposit_error_iff (u : Utils) (x : Externals) (s : ClientSynchronizer)
    (deposit : Deposit) (depositID dbTx : Nat) :
    ((afterProcessDeposit u x s deposit depositID dbTx).err ≠ none ↔
      (deposit.NetworkID = 0 ∧ s.redisStorage.AddBlockDeposit deposit ≠ none)) ∧
    (afterProcessDeposit u x s deposit depositID dbTx).err =
      (if deposit.NetworkID = 0 then
        match s.redisStorage.AddBlockDeposit deposit with
        | some err =>
          match s.storage.Rollback dbTx with
          | some rollbackErr => some rollbackErr
          | none => some err
        | none => none
      else none) := by
  unfold afterProcessDeposit afterCacheWrite
  by_cases h : deposit.NetworkID = 0
  · simp only [h, if_true, true_and]
    cases s.redisStorage.AddBlockDeposit deposit with
    | none => simp
    | some err =>
      cases s.storage.Rollback dbTx with
      | none => simp
      | some rollbackErr => simp
  · simp [h]

/-- C1, at two inputs: a mainnet deposit with a failing cache write and a working
rollback returns the error of the cache write; with a working cache it returns nil. -/
theorem afterProcessDeposit_error_iff_witness :
    (afterProcessDeposit sampleUtils sampleExternals failingCacheSynchronizer sampleDeposit 1
      0).err = some (GoError.mk "redis down") ∧
    (afterProcessDeposit sampleUtils sampleExternals sampleSynchronizer sampleDeposit 1 0).err
      = none :=
  ⟨(afterProcessDeposit_error_iff sampleUtils sampleExternals failingCacheSynchronizer
      sampleDeposit 1 0).2.trans rfl,
    (afterProcessDeposit_error_iff sampleUtils sampleExternals sampleSynchronizer
      sampleDeposit 1 0).2.trans rfl⟩

/-- C2: `Rollback` is called exactly once, on the transaction handed in, when
`NetworkID == 0` and `AddBlockDeposit` fails, and never otherwise, neither before the return
nor in the task. On that failure path the deposit is left as it was, no task is started
and the calls made are the cache write, the rollback and logs only: no metrics, no push,
no enrichment, no large-transfer check. -/
theorem afterProcessDeposit_rollback_exactly_on_failure (u : Utils) (x : Externals)
    (s : ClientSynchronizer) (deposit : Deposit) (depositID dbTx : Nat) :
    if deposit.NetworkID = 0 ∧ s.redisStorage.AddBlockDeposit deposit ≠ none then
      (afterProcessDeposit u x s deposit depositID dbTx).events.filter Event.isRollback
        = [Event.Rollback dbTx] ∧
      (afterProcessDeposit u x s deposit depositID dbTx).deposit = deposit ∧
      (afterProcessDeposit u x s deposit depositID dbTx).task = none ∧
      (afterProcessDeposit u x s deposit depositID dbTx).events.countP Event.isRecordOrder = 0 ∧
      (afterProcessDeposit u x s deposit depositID dbTx).events.countP Event.isPush = 0 ∧
      (afterProcessDeposit u x s deposit depositID dbTx).events.countP Event.isFillLogoInfos = 0 ∧
      (afterProcessDeposit u x s deposit depositID dbTx).events.countP
        Event.isFilterLargeTransaction = 0
    else
      (afterProcessDeposit u x s deposit depositID dbTx).events.countP Event.isRollback = 0 ∧
      ((afterProcessDeposit u x s deposit depositID dbTx).task.getD []).countP
        Event.isRollback = 0 := by
  unfold afterProcessDeposit afterCacheWrite
  by_cases h : deposit.NetworkID = 0
  · simp only [h, if_true, true_and]
    cases hadd : s.redisStorage.AddBlockDeposit deposit with
    | none =>
      simp [Event.isRollback, depositCreatedTask_countP_isRollback]
    | some err =>
      cases s.storage.Rollback dbTx with
      | none =>
        simp [Event.isRollback, Event.isRecordOrder, Event.isPush, Event.isFillLogoInfos,
          Event.isFilterLargeTransaction, List.filter]
      | some rollbackErr =>
        simp [Event.isRollback, Event.isRecordOrder, Event.isPush, Event.isFillLogoInfos,
          Event.isFilterLargeTransaction, List.filter]
  · simp [h, Event.isRollback, depositCreatedTask_countP_isRollback]

/-- C2, at an input: the failing cache write of a mainnet deposit is followed by one
rollback of transaction 5 and by no task. -/
theorem afterProcessDeposit_rollback_exactly_on_failure_witness :
    (afterProcessDeposit sampleUtils sampleExternals failingCacheSynchronizer sampleDeposit 1
      5).events.filter Event.isRollback = [Event.Rollback 5] ∧
    (afterProcessDeposit sampleUtils sampleExternals failingCacheSynchronizer sampleDeposit 1
      5).deposit = sampleDeposit := by
  have h := afterProcessDeposit_rollback_exactly_on_failure sampleUtils sampleExternals
    failingCacheSynchronizer sampleDeposit 1 5
  rw [if_pos (by decide)] at h
  exact ⟨h.1, h.2.1⟩

/-! ## Normalization of deposits -/

/-- A failed decode gives the empty address. -/
theorem DecodeUSDCBridgeMetadata_fst_of_failed (recipientOf : List Nat → Except GoError Address)
    (metadata : List Nat) (h : (DecodeUSDCBridgeMetadata recipientOf metadata).2 ≠ none) :
    (DecodeUSDCBridgeMetadata recipientOf metadata).1 = emptyAddress := by
  unfold DecodeUSDCBridgeMetadata at h ⊢
  cases hdec : recipientOf metadata with
  | ok recipient =>
    rw [hdec] at h
    exact absurd rfl h
  | error err => rfl

/-- C3: `beforeProcessDeposit` leaves a Message deposit with an allow-listed origin address
with `DestContractAddress` set to its previous `DestinationAddress` and
`DestinationAddress` set to the address returned by the metadata decoder, and leaves every
other deposit as it is. No other field changes and the second result of the decoder (its
error) has no influence on the deposit. With the decoder of the spec, a failed decode (a
non-nil second result) on such a deposit leaves `DestinationAddress` empty and
`DestContractAddress` set to the previous `DestinationAddress`. -/
theorem beforeProcessDeposit_spec (u : Utils) (d : Deposit) :
    beforeProcessDeposit u d =
      (if d.LeafType = u.LeafTypeMessage ∧ u.IsUSDCContractAddress d.OriginalAddress = true then
        { d with
          DestContractAddress := d.DestinationAddress
          DestinationAddress := (u.DecodeUSDCBridgeMetadata d.Metadata).1 }
      else d) ∧
    (beforeProcessDeposit u d).LeafType = d.LeafType ∧
    (beforeProcessDeposit u d).OriginalNetwork = d.OriginalNetwork ∧
    (beforeProcessDeposit u d).OriginalAddress = d.OriginalAddress ∧
    (beforeProcessDeposit u d).Amount = d.Amount ∧
    (beforeProcessDeposit u d).DestinationNetwork = d.DestinationNetwork ∧
    (beforeProcessDeposit u d).DepositCount = d.DepositCount ∧
    (beforeProcessDeposit u d).BlockNumber = d.BlockNumber ∧
    (beforeProcessDeposit u d).NetworkID = d.NetworkID ∧
    (beforeProcessDeposit u d).TxHash = d.TxHash ∧
    (beforeProcessDeposit u d).Metadata = d.Metadata ∧
    (beforeProcessDeposit u d).Time = d.Time ∧
    (∀ e : List Nat → Option GoError,
      beforeProcessDeposit
        { u with DecodeUSDCBridgeMetadata := fun m => ((u.DecodeUSDCBridgeMetadata m).1, e m) } d
        = beforeProcessDeposit u d) ∧
    (∀ recipientOf : List Nat → Except GoError Address,
      (d.LeafType = u.LeafTypeMessage ∧ u.IsUSDCContractAddress d.OriginalAddress = true ∧
        (DecodeUSDCBridgeMetadata recipientOf d.Metadata).2 ≠ none) →
      beforeProcessDeposit
        { u with DecodeUSDCBridgeMetadata := DecodeUSDCBridgeMetadata recipientOf } d
        = { d with
            DestContractAddress := d.DestinationAddress
            DestinationAddress := emptyAddress }) := by
  unfold beforeProcessDeposit
  by_cases h : d.LeafType = u.LeafTypeMessage ∧ u.IsUSDCContractAddress d.OriginalAddress = true
  · simp only [h, and_self, if_true, true_and]
    refine ⟨fun _ => trivial, ?_⟩
    intro recipientOf hfail
    rw [DecodeUSDCBridgeMetadata_fst_of_failed recipientOf d.Metadata hfail]
  · simp only [h, if_false, true_and]
    exact ⟨fun _ => trivial, fun _ h2 => absurd ⟨h2.1, h2.2.1⟩ h⟩

/-- C3, at two inputs: the USDC message deposit gets the decoded user address 42 and keeps
the relay contract 9 as `DestContractAddress`; with metadata that the decoder rejects
the destination address is empty and the relay contract is kept as well. -/
theorem beforeProcessDeposit_spec_witness :
    (beforeProcessDeposit sampleUtils usdcMessageDeposit
      = { usdcMessageDeposit with DestContractAddress := ⟨9⟩, DestinationAddress := ⟨42⟩ }) ∧
    ((DecodeUSDCBridgeMetadata sampleRecipientOf brokenMetadataDeposit.Metadata).2 ≠ none ∧
      beforeProcessDeposit sampleUtils brokenMetadataDeposit
        = { brokenMetadataDeposit with
            DestContractAddress := ⟨9⟩
            DestinationAddress := emptyAddress }) :=
  ⟨(beforeProcessDeposit_spec sampleUtils usdcMessageDeposit).1.trans rfl,
    by decide,
    (beforeProcessDeposit_spec sampleUtils brokenMetadataDeposit).2.2.2.2.2.2.2.2.2.2.2.2.2
      sampleRecipientOf ⟨rfl, rfl, by decide⟩⟩

/-! ## The global index -/

/-- C4: decoding the global index made by the encoder gives back the mainnet flag, the
rollup index and the deposit count, whenever the rollup index and the deposit count fit
their partitions. -/
theorem decodeGlobalIndex_GenerateGlobalIndex (rollupBits depositBits : Nat) (isMainnet : Bool)
    (rollupIndex depositCount : Nat) (hr : rollupIndex < 2 ^ rollupBits)
    (hd : depositCount < 2 ^ depositBits) :
    decodeGlobalIndex rollupBits depositBits
      (GenerateGlobalIndex rollupBits depositBits isMainnet rollupIndex depositCount)
      = (isMainnet, rollupIndex, depositCount) := by
  have hD : 0 < 2 ^ depositBits := Nat.pow_pos (by decide)
  have hR : 0 < 2 ^ rollupBits := Nat.pow_pos (by decide)
  have hpow : 2 ^ (rollupBits + depositBits) = 2 ^ rollupBits * 2 ^ depositBits := by
    rw [Nat.pow_add]
  have hrest : rollupIndex * 2 ^ depositBits + depositCount < 2 ^ rollupBits * 2 ^ depositBits := by
    calc rollupIndex * 2 ^ depositBits + depositCount
        < rollupIndex * 2 ^ depositBits + 2 ^ depositBits := by omega
      _ = (rollupIndex + 1) * 2 ^ depositBits := by ring
      _ ≤ 2 ^ rollupBits * 2 ^ depositBits := Nat.mul_le_mul_right _ hr
  unfold decodeGlobalIndex GenerateGlobalIndex
  rw [hpow]
  generalize hf : (if isMainnet = true then 1 else 0 : Nat) = f
  have h3 : (f * (2 ^ rollupBits * 2 ^ depositBits) + rollupIndex * 2 ^ depositBits + depositCount)
      % 2 ^ depositBits = depositCount := by
    have : f * (2 ^ rollupBits * 2 ^ depositBits) + rollupIndex * 2 ^ depositBits + depositCount
        = depositCount + 2 ^ depositBits * (f * 2 ^ rollupBits + rollupIndex) := by ring
    rw [this, Nat.add_mul_mod_self_left, Nat.mod_eq_of_lt hd]
  have h2 : (f * (2 ^ rollupBits * 2 ^ depositBits) + rollupIndex * 2 ^ depositBits + depositCount)
      / 2 ^ depositBits = f * 2 ^ rollupBits + rollupIndex := by
    have : f * (2 ^ rollupBits * 2 ^ depositBits) + rollupIndex * 2 ^ depositBits + depositCount
        = depositCount + 2 ^ depositBits * (f * 2 ^ rollupBits + rollupIndex) := by ring
    rw [this, Nat.add_mul_div_left _ _ hD, Nat.div_eq_of_lt hd, Nat.zero_add]
  have h1 : (f * (2 ^ rollupBits * 2 ^ depositBits) + rollupIndex * 2 ^ depositBits + depositCount)
      / (2 ^ rollupBits * 2 ^ depositBits) = f := by
    have : f * (2 ^ rollupBits * 2 ^ depositBits) + rollupIndex * 2 ^ depositBits + depositCount
        = (rollupIndex * 2 ^ depositBits + depositCount)
          + (2 ^ rollupBits * 2 ^ depositBits) * f := by ring
    rw [this, Nat.add_mul_div_left _ _ (Nat.mul_pos hR hD), Nat.div_eq_of_lt hrest, Nat.zero_add]
  rw [h1, h2, h3]
  have h2b : (f * 2 ^ rollupBits + rollupIndex) % 2 ^ rollupBits = rollupIndex := by
    rw [Nat.add_comm, Nat.add_mul_mod_self_right, Nat.mod_eq_of_lt hr]
  rw [h2b]
  subst hf
  cases isMainnet <;> simp

/-- C4, at an input: with 32-bit partitions, `(true, 5, 42)` is encoded and decoded back. -/
theorem decodeGlobalIndex_GenerateGlobalIndex_witness :
    (5 < 2 ^ 32 ∧ 42 < 2 ^ 32) ∧
    decodeGlobalIndex 32 32 (GenerateGlobalIndex 32 32 true 5 42) = (true, 5, 42) :=
  ⟨⟨by decide, by decide⟩,
    decodeGlobalIndex_GenerateGlobalIndex 32 32 true 5 42 (by decide) (by decide)⟩

/-- The pairing encoder is injective on its three arguments. -/
theorem pairEncoder_injective : InjectiveEncoder pairEncoder := by
  intro m r c m1 r1 c1 h
  unfold pairEncoder at h
  rw [Nat.pair_eq_pair, Nat.pair_eq_pair] at h
  obtain ⟨hm, hr, hc⟩ := h
  refine ⟨?_, hr, hc⟩
  cases m <;> cases m1 <;> simp_all

/-- C5 fails as stated: with an injective encoder, two deposits of one synchronizer that
differ in `NetworkID` (1 and 2) get the same global index. -/
theorem getGlobalIndex_not_unique_across_networks :
    ∃ x : Externals, InjectiveEncoder x.GenerateGlobalIndex ∧
      ∃ (s : ClientSynchronizer) (d1 d2 : Deposit),
        (d1.NetworkID ≠ d2.NetworkID ∨ d1.DepositCount ≠ d2.DepositCount) ∧
        getGlobalIndex x s d1 = getGlobalIndex x s d2 :=
  ⟨sampleExternals, pairEncoder_injective, sampleSynchronizer, rollupDepositA, rollupDepositB,
    Or.inl (by decide), rfl⟩

/-- C5, amended: with an injective encoder, two deposits get different global indexes from
one synchronizer whenever one is a mainnet deposit (`NetworkID == 0`) and the other is not,
or their deposit counts differ. -/
theorem getGlobalIndex_ne_of_mainnet_or_count_ne (x : Externals)
    (hinj : InjectiveEncoder x.GenerateGlobalIndex) (s : ClientSynchronizer) (d1 d2 : Deposit)
    (hdiff : decide (d1.NetworkID = 0) ≠ decide (d2.NetworkID = 0)
      ∨ d1.DepositCount ≠ d2.DepositCount) :
    getGlobalIndex x s d1 ≠ getGlobalIndex x s d2 := by
  intro heq
  unfold getGlobalIndex at heq
  obtain ⟨hm, _, hc⟩ := hinj _ _ _ _ _ _ heq
  rcases hdiff with h | h
  · exact h hm
  · exact h hc

/-- C5, amended, at an input: a mainnet deposit and a rollup deposit with the same count. -/
theorem getGlobalIndex_ne_of_mainnet_or_count_ne_witness :
    (decide (sampleDeposit.NetworkID = 0) ≠ decide (rollupDepositA.NetworkID = 0)
      ∨ sampleDeposit.DepositCount ≠ rollupDepositA.DepositCount) ∧
    getGlobalIndex sampleExternals sampleSynchronizer sampleDeposit
      ≠ getGlobalIndex sampleExternals sampleSynchronizer rollupDepositA :=
  ⟨Or.inl (by decide),
    getGlobalIndex_ne_of_mainnet_or_count_ne sampleExternals pairEncoder_injective
      sampleSynchronizer sampleDeposit rollupDepositA (Or.inl (by decide))⟩

/-! ## The deposit-created notification task -/

/-- A skipped deposit-created task makes no call at all besides one log entry. -/
theorem depositCreatedTask_of_skipped (u : Utils) (x : Externals) (s : ClientSynchronizer)
    (deposit : Deposit) (origAddress : Address) (depositID : Nat)
    (h : depositNotificationSkipped u s deposit origAddress) :
    ∃ e, depositCreatedTask u x s deposit origAddress depositID = [e] ∧
      e.isPush = false ∧ e.isFillLogoInfos = false ∧ e.isFilterLargeTransaction = false := by
  unfold depositCreatedTask
  cases hp : s.messagePushProducer with
  | none => exact ⟨_, rfl, rfl, rfl, rfl⟩
  | some producer =>
    simp only []
    by_cases h1 : deposit.LeafType ≠ u.LeafTypeAsset ∧ u.IsUSDCContractAddress origAddress = false
    · rw [if_pos h1]; exact ⟨_, rfl, rfl, rfl, rfl⟩
    · rw [if_neg h1]
      by_cases h2 : deposit.NetworkID ≠ u.GetRollupNetworkId ∧
          deposit.DestinationNetwork ≠ u.GetRollupNetworkId
      · rw [if_pos h2]; exact ⟨_, rfl, rfl, rfl, rfl⟩
      · exfalso
        rcases h with h | h | h
        · simp [hp] at h
        · exact h1 h
        · exact h2 h

/-- A deposit-created task that is not skipped enriches, pushes, logs a failed push and
then runs the monitor on the pushed transaction. -/
theorem depositCreatedTask_of_not_skipped (u : Utils) (x : Externals) (s : ClientSynchronizer)
    (deposit : Deposit) (origAddress : Address) (depositID : Nat)
    (h : ¬ depositNotificationSkipped u s deposit origAddress) :
    ∃ producer, s.messagePushProducer = some producer ∧
      depositCreatedTask u x s deposit origAddress depositID =
        Event.FillLogoInfos
            (x.GetTokenLogoMapKey (depositCreatedTransaction u x s deposit depositID).BridgeToken
              (u.GetChainIdByNetworkId deposit.OriginalNetwork))
            (depositCreatedTransaction u x s deposit depositID)
          :: Event.PushTransactionUpdate (enrichedDepositTransaction u x s deposit depositID)
          :: logIfError
              (producer.PushTransactionUpdate (enrichedDepositTransaction u x s deposit depositID))
              "PushTransactionUpdate error: %v"
          ++ filterLargeTransaction u x s (enrichedDepositTransaction u x s deposit depositID)
              (toUint64 (u.GetChainIdByNetworkId deposit.OriginalNetwork)) := by
  unfold depositNotificationSkipped at h
  have hp : ¬ s.messagePushProducer.isNone = true := fun hh => h (Or.inl hh)
  have h1n : ¬ (deposit.LeafType ≠ u.LeafTypeAsset ∧
      u.IsUSDCContractAddress origAddress = false) := fun hh => h (Or.inr (Or.inl hh))
  have h2n : ¬ (deposit.NetworkID ≠ u.GetRollupNetworkId ∧
      deposit.DestinationNetwork ≠ u.GetRollupNetworkId) := fun hh => h (Or.inr (Or.inr hh))
  unfold depositCreatedTask
  cases hprod : s.messagePushProducer with
  | none => simp [hprod] at hp
  | some producer =>
    refine ⟨producer, rfl, ?_⟩
    simp only []
    rw [if_neg h1n, if_neg h2n]
    rfl

/-- The task started by `afterProcessDeposit` runs on the deposit after the USDC info
replacement and on the origin address from before it. -/
theorem afterProcessDeposit_task (u : Utils) (x : Externals) (s : ClientSynchronizer)
    (deposit : Deposit) (depositID dbTx : Nat) (t : List Event)
    (ht : (afterProcessDeposit u x s deposit depositID dbTx).task = some t) :
    (afterProcessDeposit u x s deposit depositID dbTx).deposit
        = u.ReplaceUSDCDepositInfo deposit true ∧
    t = depositCreatedTask u x s (u.ReplaceUSDCDepositInfo deposit true)
      deposit.OriginalAddress depositID := by
  unfold afterProcessDeposit afterCacheWrite at ht ⊢
  by_cases h : deposit.NetworkID = 0
  · cases hadd : s.redisStorage.AddBlockDeposit deposit with
    | none =>
      simp only [h, if_true, hadd] at ht ⊢
      exact ⟨trivial, (Option.some.inj ht).symm⟩
    | some err =>
      cases hrb : s.storage.Rollback dbTx <;> simp [h, hadd, hrb] at ht
  · simp only [h, if_false] at ht ⊢
    exact ⟨trivial, (Option.some.inj ht).symm⟩

/-- A monitor event is no push, no enrichment and no metrics call. -/
theorem isPush_of_isMonitorEvent (e : Event) (h : e.isMonitorEvent = true) :
    e.isPush = false := by
  cases e <;> simp [Event.isMonitorEvent, Event.isPush] at h ⊢

/-- The monitor pushes nothing. -/
theorem filterLargeTransaction_filter_isPush (u : Utils) (x : Externals)
    (s : ClientSynchronizer) (tx : Transaction) (chainId : Nat) :
    (filterLargeTransaction u x s tx chainId).filter Event.isPush = [] := by
  rw [List.filter_eq_nil_iff]
  intro e he
  rw [isPush_of_isMonitorEvent e (filterLargeTransaction_all_isMonitorEvent u x s tx chainId e he)]
  simp

/-- Logging pushes nothing. -/
theorem logIfError_filter_isPush (err : Option GoError) (format : String) :
    (logIfError err format).filter Event.isPush = [] := by
  cases err <;> simp [logIfError, Event.isPush]

/-- The monitor is entered once per run. -/
theorem filterLargeTransaction_countP_entry (u : Utils) (x : Externals)
    (s : ClientSynchronizer) (tx : Transaction) (chainId : Nat) :
    (filterLargeTransaction u x s tx chainId).countP Event.isFilterLargeTransaction = 1 ∧
    (filterLargeTransaction u x s tx chainId).head? = some (Event.FilterLargeTransaction tx chainId) := by
  unfold filterLargeTransaction freshLargeTxCache
  refine ⟨?_, rfl⟩
  cases tx.LogoInfo with
  | none => simp [Event.isFilterLargeTransaction]
  | some logoInfo =>
    simp only []
    generalize s.redisStorage.GetCoinPrice _ = r
    obtain ⟨infos, err⟩ := r
    cases err with
    | some e0 => simp [Event.isFilterLargeTransaction]
    | none =>
      cases infos with
      | nil => simp [Event.isFilterLargeTransaction]
      | cons priceInfo rest =>
        cases ParseInt tx.TokenAmount with
        | none => simp [Event.isFilterLargeTransaction]
        | some num =>
          simp only [Option.getD_some]
          split
          · simp [Event.isFilterLargeTransaction]
          · simp [Event.isFilterLargeTransaction, List.countP_cons, List.countP_append,
              countP_logIfError]

/-- C6: in the task that `afterProcessDeposit` starts, `PushTransactionUpdate` is not
called, and neither the enrichment nor the large-transfer check runs, when the producer is
absent, or the leaf type of the deposit is not Asset and its origin address from before
the USDC info replacement is not allow-listed, or neither `NetworkID` nor
`DestinationNetwork` is the home rollup network id. Otherwise `PushTransactionUpdate` is
called exactly once, with a transaction whose `Status` is Created. The deposit read by the
task is the one the replacement left; when the replacement keeps `LeafType`, `NetworkID`
and `DestinationNetwork`, the conditions may be read on the deposit handed in. -/
theorem afterProcessDeposit_task_push_iff_not_skipped (u : Utils) (x : Externals)
    (s : ClientSynchronizer) (deposit : Deposit) (depositID dbTx : Nat) (t : List Event)
    (ht : (afterProcessDeposit u x s deposit depositID dbTx).task = some t) :
    (if depositNotificationSkipped u s (afterProcessDeposit u x s deposit depositID dbTx).deposit
        deposit.OriginalAddress then
      t.countP Event.isPush = 0 ∧ t.countP Event.isFillLogoInfos = 0 ∧
        t.countP Event.isFilterLargeTransaction = 0
    else
      t.filter Event.isPush = [Event.PushTransactionUpdate (enrichedDepositTransaction u x s
        (afterProcessDeposit u x s deposit depositID dbTx).deposit depositID)] ∧
      (enrichedDepositTransaction u x s
        (afterProcessDeposit u x s deposit depositID dbTx).deposit depositID).Status
          = x.TX_CREATED) ∧
    (((u.ReplaceUSDCDepositInfo deposit true).LeafType = deposit.LeafType ∧
        (u.ReplaceUSDCDepositInfo deposit true).NetworkID = deposit.NetworkID ∧
        (u.ReplaceUSDCDepositInfo deposit true).DestinationNetwork = deposit.DestinationNetwork) →
      (depositNotificationSkipped u s (afterProcessDeposit u x s deposit depositID dbTx).deposit
          deposit.OriginalAddress ↔
        depositNotificationSkipped u s deposit deposit.OriginalAddress)) := by
  obtain ⟨hdep, htask⟩ := afterProcessDeposit_task u x s deposit depositID dbTx t ht
  rw [hdep]
  refine ⟨?_, ?_⟩
  · by_cases hskip : depositNotificationSkipped u s (u.ReplaceUSDCDepositInfo deposit true)
        deposit.OriginalAddress
    · rw [if_pos hskip]
      obtain ⟨e, he, h1, h2, h3⟩ := depositCreatedTask_of_skipped u x s _ _ depositID hskip
      rw [htask, he]
      simp [h1, h2, h3]
    · rw [if_neg hskip]
      obtain ⟨producer, _, he⟩ := depositCreatedTask_of_not_skipped u x s _ _ depositID hskip
      rw [htask, he]
      refine ⟨?_, rfl⟩
      simp [List.filter_cons, Event.isPush, logIfError_filter_isPush,
        filterLargeTransaction_filter_isPush]
  · rintro ⟨h1, h2, h3⟩
    unfold depositNotificationSkipped
    rw [h1, h2, h3]

/-- C6, at an input: the sample asset deposit towards the home network is pushed once. -/
theorem afterProcessDeposit_task_push_iff_not_skipped_witness :
    (afterProcessDeposit sampleUtils sampleExternals sampleSynchronizer sampleDeposit 1 0).task
      = some (depositCreatedTask sampleUtils sampleExternals sampleSynchronizer sampleDeposit
          sampleDeposit.OriginalAddress 1) ∧
    (depositCreatedTask sampleUtils sampleExternals sampleSynchronizer sampleDeposit
      sampleDeposit.OriginalAddress 1).filter Event.isPush
      = [Event.PushTransactionUpdate (enrichedDepositTransaction sampleUtils sampleExternals
          sampleSynchronizer sampleDeposit 1)] :=
  ⟨rfl, ((afterProcessDeposit_task_push_iff_not_skipped sampleUtils sampleExternals
    sampleSynchronizer sampleDeposit 1 0 _ rfl).1 : _).1⟩

/-- The returned error of `afterProcessDeposit` reads the side store through
`AddBlockDeposit` only. -/
theorem afterProcessDeposit_err_congr (u : Utils) (x : Externals) (s : ClientSynchronizer)
    (r : RedisStorage) (hr : r.AddBlockDeposit = s.redisStorage.AddBlockDeposit)
    (deposit : Deposit) (depositID dbTx : Nat) :
    (afterProcessDeposit u x { s with redisStorage := r } deposit depositID dbTx).err
      = (afterProcessDeposit u x s deposit depositID dbTx).err := by
  unfold afterProcessDeposit afterCacheWrite
  simp only [hr]
  by_cases h : deposit.NetworkID = 0
  · simp only [h, if_true]
    cases s.redisStorage.AddBlockDeposit deposit with
    | none => rfl
    | some err => cases s.storage.Rollback dbTx <;> rfl
  · simp only [h, if_false]

/-- The pushes of a deposit-created task do not depend on the side store. -/
theorem depositCreatedTask_filter_isPush_congr (u : Utils) (x : Externals)
    (s : ClientSynchronizer) (r : RedisStorage) (deposit : Deposit) (origAddress : Address)
    (depositID : Nat) :
    (depositCreatedTask u x { s with redisStorage := r } deposit origAddress depositID).filter
        Event.isPush
      = (depositCreatedTask u x s deposit origAddress depositID).filter Event.isPush := by
  by_cases hskip : depositNotificationSkipped u s deposit origAddress
  · have hskip1 : depositNotificationSkipped u { s with redisStorage := r } deposit origAddress :=
      hskip
    obtain ⟨e, he, h1, _, _⟩ := depositCreatedTask_of_skipped u x s _ _ depositID hskip
    obtain ⟨e1, he1, h11, _, _⟩ := depositCreatedTask_of_skipped u x _ _ _ depositID hskip1
    rw [he, he1]
    simp [h1, h11]
  · have hskip1 : ¬ depositNotificationSkipped u { s with redisStorage := r } deposit origAddress :=
      hskip
    obtain ⟨p, _, he⟩ := depositCreatedTask_of_not_skipped u x s _ _ depositID hskip
    obtain ⟨p1, _, he1⟩ := depositCreatedTask_of_not_skipped u x _ _ _ depositID hskip1
    rw [he, he1]
    simp only [List.filter_cons, List.filter_append, Event.isPush, logIfError_filter_isPush,
      filterLargeTransaction_filter_isPush]
    rfl

/-- C10: when the notification of a deposit is not skipped, the task enriches, calls
`PushTransactionUpdate`, and then enters `filterLargeTransaction` exactly once, on the
transaction it pushed, whether the push returned an error or not (a failed push only adds
a log entry in between). Whatever the side store answers to the calls of the monitor,
`afterProcessDeposit` returns the same error and the task makes the same push. -/
theorem afterProcessDeposit_task_monitor_after_push (u : Utils) (x : Externals)
    (s : ClientSynchronizer) (deposit : Deposit) (depositID dbTx : Nat) (t : List Event)
    (ht : (afterProcessDeposit u x s deposit depositID dbTx).task = some t)
    (hns : ¬ depositNotificationSkipped u s
      (afterProcessDeposit u x s deposit depositID dbTx).deposit deposit.OriginalAddress) :
    (∃ producer fill, s.messagePushProducer = some producer ∧ fill.isFillLogoInfos = true ∧
      t = fill
        :: Event.PushTransactionUpdate (enrichedDepositTransaction u x s
            (afterProcessDeposit u x s deposit depositID dbTx).deposit depositID)
        :: logIfError (producer.PushTransactionUpdate (enrichedDepositTransaction u x s
            (afterProcessDeposit u x s deposit depositID dbTx).deposit depositID))
            "PushTransactionUpdate error: %v"
        ++ filterLargeTransaction u x s (enrichedDepositTransaction u x s
            (afterProcessDeposit u x s deposit depositID dbTx).deposit depositID)
            (toUint64 (u.GetChainIdByNetworkId
              (afterProcessDeposit u x s deposit depositID dbTx).deposit.OriginalNetwork))) ∧
    (filterLargeTransaction u x s (enrichedDepositTransaction u x s
        (afterProcessDeposit u x s deposit depositID dbTx).deposit depositID)
        (toUint64 (u.GetChainIdByNetworkId
          (afterProcessDeposit u x s deposit depositID dbTx).deposit.OriginalNetwork))).head?
      = some (Event.FilterLargeTransaction (enrichedDepositTransaction u x s
          (afterProcessDeposit u x s deposit depositID dbTx).deposit depositID)
          (toUint64 (u.GetChainIdByNetworkId
            (afterProcessDeposit u x s deposit depositID dbTx).deposit.OriginalNetwork))) ∧
    t.countP Event.isFilterLargeTransaction = 1 ∧
    (∀ r : RedisStorage, r.AddBlockDeposit = s.redisStorage.AddBlockDeposit →
      (afterProcessDeposit u x { s with redisStorage := r } deposit depositID dbTx).err
        = (afterProcessDeposit u x s deposit depositID dbTx).err ∧
      ((afterProcessDeposit u x { s with redisStorage := r } deposit depositID dbTx).task.getD
          []).filter Event.isPush
        = t.filter Event.isPush) := by
  obtain ⟨hdep, htask⟩ := afterProcessDeposit_task u x s deposit depositID dbTx t ht
  rw [hdep] at hns ⊢
  obtain ⟨producer, hprod, he⟩ := depositCreatedTask_of_not_skipped u x s _ _ depositID hns
  refine ⟨⟨producer, _, hprod, ?_, htask.trans he⟩, (filterLargeTransaction_countP_entry ..).2,
    ?_, ?_⟩
  · rfl
  · rw [htask, he]
    have hlog := countP_logIfError Event.isFilterLargeTransaction (fun _ => rfl)
      (producer.PushTransactionUpdate (enrichedDepositTransaction u x s
        (u.ReplaceUSDCDepositInfo deposit true) depositID)) "PushTransactionUpdate error: %v"
    rw [List.countP_append, List.countP_cons, List.countP_cons,
      (filterLargeTransaction_countP_entry ..).1, hlog]
    rfl
  · intro r hr
    refine ⟨afterProcessDeposit_err_congr u x s r hr deposit depositID dbTx, ?_⟩
    have herr := afterProcessDeposit_err_congr u x s r hr deposit depositID dbTx
    have htask1 : (afterProcessDeposit u x { s with redisStorage := r } deposit depositID dbTx).task
        = some (depositCreatedTask u x { s with redisStorage := r }
            (u.ReplaceUSDCDepositInfo deposit true) deposit.OriginalAddress depositID) := by
      unfold afterProcessDeposit afterCacheWrite at ht ⊢
      simp only [hr]
      by_cases h : deposit.NetworkID = 0
      · cases hadd : s.redisStorage.AddBlockDeposit deposit with
        | none => simp only [h, if_true, hadd]
        | some err =>
          cases hrb : s.storage.Rollback dbTx <;> simp [h, hadd, hrb] at ht
      · simp only [h, if_false]
    rw [htask1, htask]
    exact depositCreatedTask_filter_isPush_congr u x s r _ _ depositID

/-- C10, at an input: the sample deposit, compared with a side store that fails every call
of the monitor. -/
theorem afterProcessDeposit_task_monitor_after_push_witness :
    ((afterProcessDeposit sampleUtils sampleExternals sampleSynchronizer sampleDeposit 1 0).task
      = some (depositCreatedTask sampleUtils sampleExternals sampleSynchronizer sampleDeposit
          sampleDeposit.OriginalAddress 1) ∧
    ¬ depositNotificationSkipped sampleUtils sampleSynchronizer
      (afterProcessDeposit sampleUtils sampleExternals sampleSynchronizer sampleDeposit 1 0).deposit
      sampleDeposit.OriginalAddress) ∧
    ((afterProcessDeposit sampleUtils sampleExternals
        { sampleSynchronizer with redisStorage := monitorFailingRedis } sampleDeposit 1 0).err
      = (afterProcessDeposit sampleUtils sampleExternals sampleSynchronizer sampleDeposit 1 0).err ∧
    ((afterProcessDeposit sampleUtils sampleExternals
        { sampleSynchronizer with redisStorage := monitorFailingRedis } sampleDeposit 1 0).task.getD
        []).filter Event.isPush
      = (depositCreatedTask sampleUtils sampleExternals sampleSynchronizer sampleDeposit
          sampleDeposit.OriginalAddress 1).filter Event.isPush) :=
  ⟨⟨rfl, by decide⟩,
    (afterProcessDeposit_task_monitor_after_push sampleUtils sampleExternals sampleSynchronizer
      sampleDeposit 1 0 _ rfl (by decide)).2.2.2 monitorFailingRedis rfl⟩

/-! ## The large-transfer monitor -/

/-- The digit characters printed by `Nat.repr` are read back as their values. -/
theorem digitValue_digitChar (m : Nat) (h : m < 10) : digitValue (Nat.digitChar m) = some m := by
  interval_cases m <;> rfl

/-- Reading the digits printed for `n` appends `n` to the accumulator. -/
theorem parseDigits_toDigitsCore (fuel : Nat) :
    ∀ (n : Nat) (ds : List Char) (acc : Nat), n < fuel →
      ∃ k, parseDigits (Nat.toDigitsCore 10 fuel n ds) acc = parseDigits ds (acc * 10 ^ k + n) := by
  induction fuel with
  | zero => intro n ds acc h; omega
  | succ fuel ih =>
    intro n ds acc h
    unfold Nat.toDigitsCore
    simp only
    by_cases h0 : n / 10 = 0
    · rw [if_pos h0]
      refine ⟨1, ?_⟩
      have hn : n % 10 = n := by omega
      have hd := digitValue_digitChar _ (Nat.mod_lt n (by decide : 0 < 10))
      rw [hn] at hd
      simp only [parseDigits, hn, hd, pow_one]
    · rw [if_neg h0]
      obtain ⟨k, hk⟩ := ih (n / 10) (Nat.digitChar (n % 10) :: ds) acc (by omega)
      refine ⟨k + 1, ?_⟩
      rw [hk]
      simp only [parseDigits, digitValue_digitChar _ (Nat.mod_lt n (by decide))]
      congr 1
      rw [pow_succ]
      have := Nat.div_add_mod n 10
      ring_nf
      omega

/-- The printed digits are never the empty text. -/
theorem toDigitsCore_ne_nil (fuel : Nat) :
    ∀ (n : Nat) (ds : List Char), fuel ≠ 0 ∨ ds ≠ [] → Nat.toDigitsCore 10 fuel n ds ≠ [] := by
  induction fuel with
  | zero =>
    intro n ds h
    rcases h with h | h
    · exact absurd rfl h
    · simpa [Nat.toDigitsCore] using h
  | succ fuel ih =>
    intro n ds _
    unfold Nat.toDigitsCore
    simp only
    split
    · simp
    · exact ih _ _ (Or.inr (by simp))

/-- The call `strconv.ParseInt(_, 10, 64)` on the decimal text of a natural number returns the
number below `2^63` and an error from `2^63` on. -/
theorem ParseInt_repr (n : Nat) :
    ParseInt (Nat.repr n) = if n < 2 ^ 63 then some (n : Int) else none := by
  have hdata : (Nat.repr n).data = Nat.toDigits 10 n := rfl
  obtain ⟨k, hk⟩ := parseDigits_toDigitsCore (n + 1) n [] 0 (Nat.lt_succ_self n)
  have hparse : parseDigits (Nat.toDigits 10 n) 0 = some n := by
    unfold Nat.toDigits
    rw [hk]
    simp [parseDigits]
  have hne : Nat.toDigits 10 n ≠ [] := toDigitsCore_ne_nil (n + 1) n [] (Or.inl (by omega))
  unfold ParseInt
  rw [hdata]
  cases hl : Nat.toDigits 10 n with
  | nil => exact absurd hl hne
  | cons c cs =>
    rw [hl] at hparse
    have hc : digitValue c ≠ none := by
      intro hcn
      simp [parseDigits, hcn] at hparse
    have hplus : c ≠ '+' := by
      rintro rfl
      exact hc (by decide)
    have hminus : c ≠ '-' := by
      rintro rfl
      exact hc (by decide)
    simp only [hplus, hminus, or_self, if_false, decide_False]
    have hrest : parseUintDigits (c :: cs) = some n := hparse
    rw [hrest]
    simp only
    by_cases hn : n < 2 ^ 63
    · have hle : ¬ (2 ^ 63 ≤ n) := not_le_of_lt hn
      simp only [ge_iff_le, hle, and_false, if_false, hn, if_true]
      simp
    · have hle : 2 ^ 63 ≤ n := not_lt.mp hn
      simp only [ge_iff_le, hle, and_self, if_true, hn, if_false]

/-- A run of the monitor on an amount that `ParseInt` rejects writes and deletes nothing. -/
theorem filterLargeTransaction_of_parse_error (u : Utils) (x : Externals)
    (s : ClientSynchronizer) (tx : Transaction) (chainId : Nat)
    (hparse : ParseInt tx.TokenAmount = none) :
    (filterLargeTransaction u x s tx chainId).countP Event.isAddLargeTransaction = 0 ∧
    (filterLargeTransaction u x s tx chainId).countP Event.isDelLargeTransactions = 0 := by
  unfold filterLargeTransaction
  cases tx.LogoInfo with
  | none => simp [Event.isAddLargeTransaction, Event.isDelLargeTransactions]
  | some logoInfo =>
    simp only [hparse]
    generalize s.redisStorage.GetCoinPrice _ = r
    obtain ⟨infos, err⟩ := r
    cases err with
    | some e0 => simp [Event.isAddLargeTransaction, Event.isDelLargeTransactions]
    | none =>
      cases infos with
      | nil => simp [Event.isAddLargeTransaction, Event.isDelLargeTransactions]
      | cons priceInfo rest => simp [Event.isAddLargeTransaction, Event.isDelLargeTransactions]

/-- A run of the monitor on an amount below `2^63`, with logo info and a price: the record
is written exactly when the USD amount is not below the threshold, in the float
arithmetic handed in. -/
theorem filterLargeTransaction_write_iff_of_lt (u : Utils) (x : Externals)
    (s : ClientSynchronizer) (tx : Transaction) (chainId : Nat) (logoInfo : LogoInfo)
    (priceInfo : PriceInfo) (rest : List PriceInfo) (rawAmount : Nat)
    (hlogo : tx.LogoInfo = some logoInfo)
    (hprice : s.redisStorage.GetCoinPrice
      [{ ChainId := toUint64 chainId, Address := tx.BridgeToken }] = (priceInfo :: rest, none))
    (hamount : tx.TokenAmount = bigIntString (some (rawAmount : Int)))
    (hlt : rawAmount < 2 ^ 63) :
    (filterLargeTransaction u x s tx chainId).countP Event.isAddLargeTransaction
      = (if x.flt (x.fmul priceInfo.Price
            (x.fdiv (x.float64OfUint64 rawAmount) (x.Pow10 logoInfo.Decimal)))
          (Float64frombits s.LargeTxUsdLimit) = true then 0 else 1) := by
  have hparse : ParseInt tx.TokenAmount = some (rawAmount : Int) := by
    rw [hamount]
    show ParseInt (Nat.repr rawAmount) = _
    rw [ParseInt_repr, if_pos hlt]
  have hconv : int64ToUint64 (rawAmount : Int) = rawAmount := by
    unfold int64ToUint64
    have h1 : ((rawAmount : Int) % 2 ^ 64) = (rawAmount : Int) :=
      Int.emod_eq_of_lt (by omega) (by
        have : (rawAmount : Int) < 2 ^ 63 := by exact_mod_cast hlt
        omega)
    rw [h1]
    simp
  unfold filterLargeTransaction freshLargeTxCache
  simp only [hlogo, hprice, hparse, hconv, Option.getD_some]
  split
  · simp [Event.isAddLargeTransaction]
  · simp [Event.isAddLargeTransaction, List.countP_cons, List.countP_append, countP_logIfError]

/-- C7: the monitor does not see an amount of `10^19` base units (ten tokens of 18
decimals): its decimal text is outside the range of `strconv.ParseInt(_, 10, 64)`, so for
every price, threshold and float arithmetic the run ends without `AddLargeTransaction`
and without `DelLargeTransactions`. The same holds for the decimal text of every amount
from `2^63` on. -/
theorem filterLargeTransaction_skips_ten_pow_19 (u : Utils) (x : Externals)
    (s : ClientSynchronizer) (tx : Transaction) (chainId : Nat) :
    bigIntString (some (10 ^ 19)) = "10000000000000000000" ∧
    ParseInt "10000000000000000000" = none ∧
    (filterLargeTransaction u x s { tx with TokenAmount := "10000000000000000000" }
      chainId).countP Event.isAddLargeTransaction = 0 ∧
    (filterLargeTransaction u x s { tx with TokenAmount := "10000000000000000000" }
      chainId).countP Event.isDelLargeTransactions = 0 ∧
    (∀ rawAmount : Nat, 2 ^ 63 ≤ rawAmount →
      (filterLargeTransaction u x s
        { tx with TokenAmount := bigIntString (some (rawAmount : Int)) }
        chainId).countP Event.isAddLargeTransaction = 0) := by
  have hparse : ParseInt "10000000000000000000" = none := by decide
  refine ⟨by decide, hparse, ?_, ?_, ?_⟩
  · exact (filterLargeTransaction_of_parse_error u x s _ chainId hparse).1
  · exact (filterLargeTransaction_of_parse_error u x s _ chainId hparse).2
  · intro rawAmount hge
    refine (filterLargeTransaction_of_parse_error u x s _ chainId ?_).1
    show ParseInt (Nat.repr rawAmount) = none
    rw [ParseInt_repr, if_neg (by omega)]

/-- The calls of `freshLargeTxCache` on a transaction with logo info. -/
theorem freshLargeTxCache_eq (u : Utils) (s : ClientSynchronizer) (tx : Transaction)
    (chainId : Nat) (tokenAmount usdAmount : Float64) (logoInfo : LogoInfo)
    (hlogo : tx.LogoInfo = some logoInfo) :
    freshLargeTxCache u s tx chainId tokenAmount usdAmount =
      some (Event.AddLargeTransaction (u.GetLargeTxRedisKeySuffix tx.ToChain LargeTxOp.OpWrite)
          (expectedLargeTxInfo tx logoInfo chainId tokenAmount usdAmount)
        :: logIfError
          (s.redisStorage.AddLargeTransaction
            (u.GetLargeTxRedisKeySuffix tx.ToChain LargeTxOp.OpWrite)
            (expectedLargeTxInfo tx logoInfo chainId tokenAmount usdAmount))
          "failed set large tx cache for tx: %v, err: %v"
        ++ Event.DelLargeTransactions (u.GetLargeTxRedisKeySuffix tx.ToChain LargeTxOp.OpDel)
        :: logIfError
          (s.redisStorage.DelLargeTransactions
            (u.GetLargeTxRedisKeySuffix tx.ToChain LargeTxOp.OpDel))
          "failed del large tx cache for key: %v, err: %v") := by
  unfold freshLargeTxCache expectedLargeTxInfo
  simp only [hlogo]

/-- Logging adds no call besides log entries. -/
theorem logIfError_filter_not_isLog (err : Option GoError) (format : String) :
    (logIfError err format).filter (fun e => !e.isLog) = [] := by
  cases err <;> simp [logIfError, Event.isLog]

/-- C11: on a transaction with logo info (as every transaction that clears the threshold
has), `freshLargeTxCache` first calls `AddLargeTransaction` exactly once, under the write
key of the destination chain `ToChain`, with the symbol, token amount, USD amount, hash
and destination address of the transaction, and then calls `DelLargeTransactions` exactly
once, under the delete key of the same chain. This holds for every answer of the side
store: a failed write or a failed delete only adds a log entry, no further call is made
and the function ends normally. In `filterLargeTransaction` these calls are the whole rest
of the run once the threshold is cleared. -/
theorem freshLargeTxCache_write_then_delete (u : Utils) (s : ClientSynchronizer)
    (tx : Transaction) (chainId : Nat) (tokenAmount usdAmount : Float64) (logoInfo : LogoInfo)
    (hlogo : tx.LogoInfo = some logoInfo) :
    freshLargeTxCache u s tx chainId tokenAmount usdAmount =
      some (Event.AddLargeTransaction (u.GetLargeTxRedisKeySuffix tx.ToChain LargeTxOp.OpWrite)
          (expectedLargeTxInfo tx logoInfo chainId tokenAmount usdAmount)
        :: logIfError
          (s.redisStorage.AddLargeTransaction
            (u.GetLargeTxRedisKeySuffix tx.ToChain LargeTxOp.OpWrite)
            (expectedLargeTxInfo tx logoInfo chainId tokenAmount usdAmount))
          "failed set large tx cache for tx: %v, err: %v"
        ++ Event.DelLargeTransactions (u.GetLargeTxRedisKeySuffix tx.ToChain LargeTxOp.OpDel)
        :: logIfError
          (s.redisStorage.DelLargeTransactions
            (u.GetLargeTxRedisKeySuffix tx.ToChain LargeTxOp.OpDel))
          "failed del large tx cache for key: %v, err: %v") ∧
    ((freshLargeTxCache u s tx chainId tokenAmount usdAmount).getD []).filter
        (fun e => !e.isLog)
      = [Event.AddLargeTransaction (u.GetLargeTxRedisKeySuffix tx.ToChain LargeTxOp.OpWrite)
          (expectedLargeTxInfo tx logoInfo chainId tokenAmount usdAmount),
        Event.DelLargeTransactions (u.GetLargeTxRedisKeySuffix tx.ToChain LargeTxOp.OpDel)] ∧
    ((freshLargeTxCache u s tx chainId tokenAmount usdAmount).getD []).countP
      Event.isAddLargeTransaction = 1 ∧
    ((freshLargeTxCache u s tx chainId tokenAmount usdAmount).getD []).countP
      Event.isDelLargeTransactions = 1 ∧
    ((expectedLargeTxInfo tx logoInfo chainId tokenAmount usdAmount).Symbol = logoInfo.Symbol ∧
      (expectedLargeTxInfo tx logoInfo chainId tokenAmount usdAmount).Amount = tokenAmount ∧
      (expectedLargeTxInfo tx logoInfo chainId tokenAmount usdAmount).UsdAmount = usdAmount ∧
      (expectedLargeTxInfo tx logoInfo chainId tokenAmount usdAmount).Hash = tx.TxHash ∧
      (expectedLargeTxInfo tx logoInfo chainId tokenAmount usdAmount).Address = tx.DestAddr) ∧
    (∀ (x : Externals) (priceInfo : PriceInfo) (rest : List PriceInfo) (num : Int),
      s.redisStorage.GetCoinPrice [{ ChainId := toUint64 chainId, Address := tx.BridgeToken }]
        = (priceInfo :: rest, none) →
      ParseInt tx.TokenAmount = some num →
      x.flt (x.fmul priceInfo.Price
          (x.fdiv (x.float64OfUint64 (int64ToUint64 num)) (x.Pow10 logoInfo.Decimal)))
        (Float64frombits s.LargeTxUsdLimit) = false →
      filterLargeTransaction u x s tx chainId =
        Event.FilterLargeTransaction tx chainId
          :: Event.GetCoinPrice [{ ChainId := toUint64 chainId, Address := tx.BridgeToken }]
          :: (freshLargeTxCache u s tx chainId
              (x.fdiv (x.float64OfUint64 (int64ToUint64 num)) (x.Pow10 logoInfo.Decimal))
              (x.fmul priceInfo.Price
                (x.fdiv (x.float64OfUint64 (int64ToUint64 num))
                  (x.Pow10 logoInfo.Decimal)))).getD []) := by
  have heq := freshLargeTxCache_eq u s tx chainId tokenAmount usdAmount logoInfo hlogo
  refine ⟨heq, ?_, ?_, ?_, ⟨rfl, rfl, rfl, rfl, rfl⟩, ?_⟩
  · rw [heq, Option.getD_some, List.filter_append, List.filter_cons, List.filter_cons,
      logIfError_filter_not_isLog, logIfError_filter_not_isLog]
    rfl
  · rw [heq, Option.getD_some, List.countP_append, List.countP_cons, List.countP_cons,
      countP_logIfError _ (fun _ => rfl), countP_logIfError _ (fun _ => rfl)]
    rfl
  · rw [heq, Option.getD_some, List.countP_append, List.countP_cons, List.countP_cons,
      countP_logIfError _ (fun _ => rfl), countP_logIfError _ (fun _ => rfl)]
    rfl
  · intro x priceInfo rest num hprice hparse hflt
    unfold filterLargeTransaction
    simp only [hlogo, hprice, hparse, hflt]
    rfl

/-- C11, at an input: with a side store that fails the write and the delete, the
transaction towards chain 1 still leads to the write under `w1`, the delete under `d1`
and one log entry after each. -/
theorem freshLargeTxCache_write_then_delete_witness :
    sampleLargeTransaction.LogoInfo = some { Symbol := "ETH", Decimal := 18 } ∧
    freshLargeTxCache sampleUtils monitorFailingSynchronizer sampleLargeTransaction 100 ⟨5⟩ ⟨10⟩
      = some [Event.AddLargeTransaction "w1"
          { ChainId := 100, Symbol := "ETH", Amount := ⟨5⟩, UsdAmount := ⟨10⟩, Hash := "77",
            Address := "9" },
        Event.Errorf "failed set large tx cache for tx: %v, err: %v",
        Event.DelLargeTransactions "d1",
        Event.Errorf "failed del large tx cache for key: %v, err: %v"] :=
  ⟨rfl, (freshLargeTxCache_write_then_delete sampleUtils monitorFailingSynchronizer
    sampleLargeTransaction 100 ⟨5⟩ ⟨10⟩ _ rfl).1.trans rfl⟩

/-! ## Claim post-processing -/

/-- C8 fails as stated: without a producer the task of `afterProcessClaim` neither looks
the deposit up nor pushes, although the lookup would find an Asset deposit. -/
theorem afterProcessClaim_without_producer_no_lookup :
    (∃ deposit, noProducerSynchronizer.storage.GetDeposit sampleClaim.Index 3 = Except.ok deposit ∧
      deposit.LeafType = sampleUtils.LeafTypeAsset) ∧
    (afterProcessClaim sampleUtils sampleExternals noProducerSynchronizer sampleClaim).task.countP
      Event.isGetDeposit = 0 ∧
    (afterProcessClaim sampleUtils sampleExternals noProducerSynchronizer sampleClaim).task.countP
      Event.isPush = 0 := by
  refine ⟨⟨_, rfl, rfl⟩, ?_, ?_⟩ <;> decide

/-- C8, amended: `afterProcessClaim` returns nil. Without a producer its task makes no
lookup and no push. With a producer the task looks the deposit up once, with
`GetDeposit(claim.Index, originNetwork)` where `originNetwork` is 0 when `MainnetFlag` is
set and `claim.RollupIndex + 1` (in `uint64`) otherwise; when the lookup fails, or the
deposit found is no Asset leaf and its origin address is not allow-listed, nothing is
pushed; otherwise `PushTransactionUpdate` is called exactly once, with `Status` Claimed, the
hash and time of the claim, and the deposit count of the deposit found as `Index`. -/
theorem afterProcessClaim_spec (u : Utils) (x : Externals) (s : ClientSynchronizer)
    (claim : Claim) :
    (afterProcessClaim u x s claim).err = none ∧
    (match s.messagePushProducer with
    | none =>
      (afterProcessClaim u x s claim).task.countP Event.isGetDeposit = 0 ∧
      (afterProcessClaim u x s claim).task.countP Event.isPush = 0
    | some _ =>
      (afterProcessClaim u x s claim).task.filter Event.isGetDeposit
        = [Event.GetDeposit claim.Index
            (if claim.MainnetFlag = true then 0 else toUint64 (claim.RollupIndex + 1))] ∧
      (match s.storage.GetDeposit claim.Index
          (if claim.MainnetFlag = true then 0 else toUint64 (claim.RollupIndex + 1)) with
      | Except.error _ => (afterProcessClaim u x s claim).task.countP Event.isPush = 0
      | Except.ok deposit =>
        if deposit.LeafType ≠ u.LeafTypeAsset ∧
            u.IsUSDCContractAddress deposit.OriginalAddress = false then
          (afterProcessClaim u x s claim).task.countP Event.isPush = 0
        else
          (afterProcessClaim u x s claim).task.filter Event.isPush
            = [Event.PushTransactionUpdate (claimedTransaction x s claim deposit)] ∧
          (claimedTransaction x s claim deposit).Status = x.TX_CLAIMED ∧
          (claimedTransaction x s claim deposit).ClaimTxHash = x.HashHex claim.TxHash ∧
          (claimedTransaction x s claim deposit).ClaimTime = int64ToUint64 claim.Time ∧
          (claimedTransaction x s claim deposit).Index = toUint64 deposit.DepositCount)) := by
  refine ⟨rfl, ?_⟩
  have horigin : claimOriginNetwork claim
      = (if claim.MainnetFlag = true then 0 else toUint64 (claim.RollupIndex + 1)) := by
    unfold claimOriginNetwork
    cases claim.MainnetFlag <;> simp
  unfold afterProcessClaim claimTask
  rw [horigin]
  cases s.messagePushProducer with
  | none => simp [Event.isGetDeposit, Event.isPush]
  | some producer =>
    simp only []
    cases s.storage.GetDeposit claim.Index
        (if claim.MainnetFlag = true then 0 else toUint64 (claim.RollupIndex + 1)) with
    | error e => simp [Event.isGetDeposit, Event.isPush]
    | ok deposit =>
      simp only []
      by_cases h : deposit.LeafType ≠ u.LeafTypeAsset ∧
          u.IsUSDCContractAddress deposit.OriginalAddress = false
      · simp only [if_pos h]
        simp [Event.isGetDeposit, Event.isPush]
      · simp only [if_neg h]
        have hlog1 : (logIfError (producer.PushTransactionUpdate
            (claimedTransaction x s claim deposit)) "PushTransactionUpdate error: %v").filter
            Event.isGetDeposit = [] := by
          cases producer.PushTransactionUpdate (claimedTransaction x s claim deposit) <;>
            simp [logIfError, Event.isGetDeposit]
        refine ⟨?_, ?_, rfl, rfl, rfl, rfl⟩
        · simp [List.filter_cons, Event.isGetDeposit, hlog1]
        · simp [List.filter_cons, Event.isPush, logIfError_filter_isPush]

/-- C8, amended, at an input: with a producer, the claim with rollup index 2 and index 4
leads to one lookup `GetDeposit(4, 3)`. -/
theorem afterProcessClaim_spec_witness :
    (afterProcessClaim sampleUtils sampleExternals sampleSynchronizer sampleClaim).task.filter
      Event.isGetDeposit = [Event.GetDeposit 4 3] :=
  (afterProcessClaim_spec sampleUtils sampleExternals sampleSynchronizer sampleClaim).2.1

/-! ## The broker producer -/

/-- The option loop is a left fold. -/
theorem applyOptFns_eq_foldl (optFns : List produceOptFunc) (opts : produceOptions) :
    applyOptFns optFns opts
      = optFns.foldl (fun (o : produceOptions) (f : produceOptFunc) => f o) opts := by
  induction optFns generalizing opts with
  | nil => rfl
  | cons f fs ih => simp [applyOptFns, ih]

/-- What `Produce` does on a present producer for a message that was encoded. -/
theorem Produce_of_encoded {α : Type} (Marshal : α → Except GoError String)
    (impl : kafkaProducerImpl) (producer : SyncProducer) (hprod : impl.producer = some producer)
    (msg : Message α) (optFns : List produceOptFunc) (value : String)
    (hval : (match msg with
      | Message.str v => Except.ok v
      | Message.obj o => Marshal o) = Except.ok value) :
    (Produce Marshal (some impl) msg optFns).events.filter ProducerEvent.isSendMessage
      = [ProducerEvent.SendMessage (expectedProducerMessage impl optFns value)] ∧
    ((Produce Marshal (some impl) msg optFns).err ≠ none ↔
      ∃ e, producer.SendMessage (expectedProducerMessage impl optFns value) = Except.error e) := by
  have hmsg : (match msg with
      | Message.str v => (Except.ok v : Except GoError String)
      | Message.obj o =>
        match Marshal o with
        | Except.error err => Except.error err
        | Except.ok b => Except.ok b) = Except.ok value := by
    cases msg with
    | str v => exact hval
    | obj o =>
      simp only at hval ⊢
      rw [hval]
  have hkey : (if (applyOptFns optFns
        { topic := impl.defaultTopic, pushKey := impl.defaultPushKey }).pushKey ≠ "" then
        ({ Topic := (applyOptFns optFns
            { topic := impl.defaultTopic, pushKey := impl.defaultPushKey }).topic
           Value := value
           Key := some (applyOptFns optFns
            { topic := impl.defaultTopic, pushKey := impl.defaultPushKey }).pushKey }
          : ProducerMessage)
      else
        { Topic := (applyOptFns optFns
            { topic := impl.defaultTopic, pushKey := impl.defaultPushKey }).topic
          Value := value
          Key := none }) = expectedProducerMessage impl optFns value := by
    unfold expectedProducerMessage resolvedOptions
    rw [applyOptFns_eq_foldl]
    split_ifs <;> simp_all
  unfold Produce
  simp only [hprod, hmsg, hkey]
  cases producer.SendMessage (expectedProducerMessage impl optFns value) with
  | error e => simp [ProducerEvent.isSendMessage]
  | ok r => simp [ProducerEvent.isSendMessage]

/-- C9: on a present producer `Produce` sends exactly one broker message, whose value is
the message itself when it is a string and its JSON encoding otherwise, with the topic and
the key given by the options applied in order to the defaults of the producer (the last
`WithTopic` and the last `WithPushKey` win; the key is set only when the push key is not
empty). When the JSON encoding fails nothing is sent and the error is non-nil; otherwise
the error is non-nil exactly when the send fails. On a nil receiver or a nil underlying
producer nothing is sent and nil is returned. -/
theorem Produce_spec {α : Type} (Marshal : α → Except GoError String)
    (p : Option kafkaProducerImpl) (msg : Message α) (optFns : List produceOptFunc) :
    (match p with
    | none =>
      (Produce Marshal p msg optFns).err = none ∧
      (Produce Marshal p msg optFns).events.filter ProducerEvent.isSendMessage = []
    | some impl =>
      match impl.producer with
      | none =>
        (Produce Marshal p msg optFns).err = none ∧
        (Produce Marshal p msg optFns).events.filter ProducerEvent.isSendMessage = []
      | some producer =>
        match msg with
        | Message.str v =>
          (Produce Marshal p msg optFns).events.filter ProducerEvent.isSendMessage
            = [ProducerEvent.SendMessage (expectedProducerMessage impl optFns v)] ∧
          ((Produce Marshal p msg optFns).err ≠ none ↔
            ∃ e, producer.SendMessage (expectedProducerMessage impl optFns v) = Except.error e)
        | Message.obj o =>
          match Marshal o with
          | Except.error _ =>
            (Produce Marshal p msg optFns).events.filter ProducerEvent.isSendMessage = [] ∧
            (Produce Marshal p msg optFns).err ≠ none
          | Except.ok b =>
            (Produce Marshal p msg optFns).events.filter ProducerEvent.isSendMessage
              = [ProducerEvent.SendMessage (expectedProducerMessage impl optFns b)] ∧
            ((Produce Marshal p msg optFns).err ≠ none ↔
              ∃ e, producer.SendMessage (expectedProducerMessage impl optFns b)
                = Except.error e)) ∧
    (∀ (impl : kafkaProducerImpl) (fs : List produceOptFunc) (t : String),
      (resolvedOptions impl (fs ++ [WithTopic t])).topic = t ∧
      (resolvedOptions impl (fs ++ [WithTopic t])).pushKey = (resolvedOptions impl fs).pushKey) ∧
    (∀ (impl : kafkaProducerImpl) (fs : List produceOptFunc) (k : String),
      (resolvedOptions impl (fs ++ [WithPushKey k])).pushKey = k ∧
      (resolvedOptions impl (fs ++ [WithPushKey k])).topic = (resolvedOptions impl fs).topic) ∧
    (∀ impl : kafkaProducerImpl, resolvedOptions impl []
      = { topic := impl.defaultTopic, pushKey := impl.defaultPushKey }) := by
  refine ⟨?_, ?_, ?_, ?_⟩
  · cases p with
    | none => exact ⟨rfl, rfl⟩
    | some impl =>
      simp only []
      cases hprod : impl.producer with
      | none =>
        simp only []
        unfold Produce
        simp only [hprod]
        exact ⟨trivial, rfl⟩
      | some producer =>
        simp only []
        cases msg with
        | str v => exact Produce_of_encoded Marshal impl producer hprod _ optFns v rfl
        | obj o =>
          simp only []
          cases hM : Marshal o with
          | error e =>
            simp only []
            unfold Produce
            simp only [hprod, hM]
            exact ⟨rfl, by simp⟩
          | ok b =>
            exact Produce_of_encoded Marshal impl producer hprod _ optFns b hM
  · intro impl fs t
    unfold resolvedOptions
    rw [List.foldl_append]
    exact ⟨rfl, rfl⟩
  · intro impl fs k
    unfold resolvedOptions
    rw [List.foldl_append]
    exact ⟨rfl, rfl⟩
  · intro impl
    rfl

/-- C9, at an input: the number 7 produced with two topics and a push key goes out once,
as its JSON text, to the later topic and with the key. -/
theorem Produce_spec_witness :
    (Produce natMarshal (some sampleProducerImpl) (Message.obj 7)
      [WithTopic "a", WithPushKey "k", WithTopic "b"]).events.filter ProducerEvent.isSendMessage
      = [ProducerEvent.SendMessage { Topic := "b", Value := "7", Key := some "k" }] :=
  ((Produce_spec natMarshal (some sampleProducerImpl) (Message.obj 7)
    [WithTopic "a", WithPushKey "k", WithTopic "b"]).1 : _).1

end XagonBridge
